import Mathlib

/-!
Shallow embedding of the xcso-rust CISO converter (`src/main.rs`) and
verification of the specification claims about it.

Modelling conventions:
* machine integers become `Nat` with explicit `% 2^32` where the source casts
  to `u32` (`write_pos as u32`);
* the source file handle becomes `ModelFile` (a length plus a byte function);
  the cursor mutated by `seek`/`read` is made explicit (`get_cso_info` returns
  the resulting cursor, the per-block loop threads `srcPos`);
* output `File`s become `OutFile` (contents plus write position); `write`
  splices at the position, `seek` sets the position;
* the LZ4 encoder (`compress_block_v2`) is an external library call; the loop
  is parametrised by the function `compress : List Nat → List Nat` standing
  for its (header/footer-trimmed) output, so every theorem quantifies over
  all possible encoder behaviours;
* `Result<T, io::Error>` becomes `Except String T`; `read_exact` failing with
  `ErrorKind::UnexpectedEof` ("failed to fill whole buffer") leaves the buffer
  unchanged in the model (Rust leaves it unspecified; for the probes used
  here the file is either long enough or empty, where nothing is filled).
-/

/-- Constant `CISO_MAGIC` (the bytes "CISO" as a little-endian u32). -/
def CISO_MAGIC : Nat := 0x4F534943

/-- Constant `CISO_HEADER_SIZE` (24 bytes). -/
def CISO_HEADER_SIZE : Nat := 0x18

/-- Constant `CISO_BLOCK_SIZE` (2048 bytes). -/
def CISO_BLOCK_SIZE : Nat := 0x800

/-- Constant `XBOX_MEDIA_HEADER_REDUMP_OFFSET` (`SeekFrom::Start(0x18310000)`). -/
def XBOX_MEDIA_HEADER_REDUMP_OFFSET : Nat := 0x18310000

/-- Constant `XBOX_MEDIA_HEADER_XDVDFS_OFFSET` (`SeekFrom::Start(0x10000)`). -/
def XBOX_MEDIA_HEADER_XDVDFS_OFFSET : Nat := 0x10000

/-- Constant `FATX_MAX_SIZE` (per-file split ceiling, bytes). -/
def FATX_MAX_SIZE : Nat := 4290732032

/-- The 20 signature bytes `b"MICROSOFT*XBOX*MEDIA"`. -/
def xbox_media_header : List Nat :=
  [77, 73, 67, 82, 79, 83, 79, 70, 84, 42, 88, 66, 79, 88, 42, 77, 69, 68, 73, 65]

deriving instance DecidableEq for Except

/-- A read-only source file: its length and its byte at each offset. -/
structure ModelFile where
  size : Nat
  byteAt : Nat → Nat

/-- Model of `seek(Start pos)` followed by `read_exact` of `n` bytes: succeeds
with the bytes when the file is long enough, otherwise fails the way
`read_exact` does (`ErrorKind::UnexpectedEof`). -/
def readExact (f : ModelFile) (pos n : Nat) : Except String (List Nat) :=
  if pos + n ≤ f.size then
    .ok ((List.range n).map fun i => f.byteAt (pos + i))
  else
    .error "failed to fill whole buffer"

/-- Model of `get_image_offset`: probe the redump offset, then the XDVDFS
offset, for the signature.  The source discards the `Result`s of `seek` and
`read_exact` (`_ = ...`), so a failed probe read leaves `buf` unchanged and
the comparison simply fails. -/
def get_image_offset (f : ModelFile) : Except String Nat :=
  let buf0 : List Nat := List.replicate 20 0
  let buf1 := match readExact f XBOX_MEDIA_HEADER_REDUMP_OFFSET 20 with
    | .ok l => l
    | .error _ => buf0
  if buf1 = xbox_media_header then
    .ok 0x18300000
  else
    let buf2 := match readExact f XBOX_MEDIA_HEADER_XDVDFS_OFFSET 20 with
      | .ok l => l
      | .error _ => buf1
    if buf2 = xbox_media_header then
      .ok 0x0
    else
      .error "could not get image offset"

/-- An output file: contents plus the current write position. -/
structure OutFile where
  data : List Nat
  pos : Nat
deriving Repr

/-- One `write` call: splice `buf` into the contents at the write position and
advance the position. -/
def fileWrite (f : OutFile) (buf : List Nat) : OutFile :=
  { data := f.data.take f.pos ++ buf ++ f.data.drop (f.pos + buf.length),
    pos := f.pos + buf.length }

/-- Model of `pad_file`: seek to the end, take `end & 0x3FF`, and write
`0x400 - pad_size` zero bytes. -/
def pad_file (f : OutFile) : OutFile :=
  let e := f.data.length
  let pad_size := e % 1024
  fileWrite { f with pos := e } (List.replicate (1024 - pad_size) 0)

/-- The `CsoImage` descriptor (`version`, `align`, `total_bytes`,
`total_blocks`). -/
structure CsoImage where
  version : Nat
  align : Nat
  total_bytes : Nat
  total_blocks : Nat
deriving Repr, DecidableEq

/-- Model of `get_cso_info`: find the image offset, compute
`byte_len = file_len - image_offset` and `blocks = byte_len / CISO_BLOCK_SIZE`
(truncating integer division), and seek the source to the image offset (the
returned `Nat` is the resulting cursor). -/
def get_cso_info (f : ModelFile) : Except String (CsoImage × Nat) :=
  match get_image_offset f with
  | .error e => .error e
  | .ok image_offset =>
    let byte_len := f.size - image_offset
    let blocks := byte_len / CISO_BLOCK_SIZE
    .ok ({ version := 2, align := 2, total_bytes := byte_len,
           total_blocks := blocks }, image_offset)

/-- Little-endian byte serialisation of `n` into `k` bytes (`to_le_bytes`). -/
def bytesLE (k n : Nat) : List Nat :=
  (List.range k).map fun i => n / 256 ^ i % 256

/-- Model of `write_cso_info`: the 24 header bytes
(magic, header size, total bytes, block size, version, align, pad). -/
def write_cso_info (img : CsoImage) : List Nat :=
  bytesLE 4 CISO_MAGIC ++ bytesLE 4 CISO_HEADER_SIZE ++
  bytesLE 8 img.total_bytes ++ bytesLE 4 CISO_BLOCK_SIZE ++
  bytesLE 1 img.version ++ bytesLE 1 img.align ++ bytesLE 2 0

/-- Model of the byte stream produced by `write_block_index`: each index entry
as a little-endian u32. -/
def blockIndexBytes (blocks : List Nat) : List Nat :=
  blocks.flatMap fun b => bytesLE 4 b

/-- The mutable state of the per-block loop in `compress_iso`. -/
structure LoopState where
  file1 : OutFile
  file2 : Option OutFile
  writePos : Nat
  blockIndex : List Nat
  srcPos : Nat
  filesOpened : List String

/-- Write to whichever output file is active (`dest_f2` when it exists,
otherwise `dest_f1`), as the repeated `match dest_f2` in the source. -/
def writeActive (s : LoopState) (buf : List Nat) : LoopState :=
  match s.file2 with
  | some f => { s with file2 := some (fileWrite f buf) }
  | none => { s with file1 := fileWrite s.file1 buf }

/-- The bytes returned by `iso_file.read(&mut blockbuf)` with the source
cursor at `p`: up to `CISO_BLOCK_SIZE` bytes, fewer near the end of file. -/
def blockRead (src : ModelFile) (p : Nat) : List Nat :=
  (List.range (min CISO_BLOCK_SIZE (src.size - p))).map fun i => src.byteAt (p + i)

/-- One iteration of the `for block in 0..total_blocks` loop of
`compress_iso`: split check, alignment padding, index entry, read, compress,
and the raw-versus-compressed store decision.  `image_details.align` is always
2 (`align_b = 4`, `align_m = 3`). -/
def loopStep (compress : List Nat → List Nat) (src : ModelFile) (fp : String)
    (block : Nat) (s0 : LoopState) : LoopState :=
  -- Check if we need to split the ISO (due to FATX limitations)
  let s1 := if s0.writePos > FATX_MAX_SIZE then
      { s0 with file2 := some { data := [], pos := 0 },
                writePos := 0,
                filesOpened := s0.filesOpened ++ [fp ++ ".2.cso"] }
    else s0
  -- alignment padding up to a multiple of align_b = 4
  let alignOff := s1.writePos % 4
  let s2 := if alignOff > 0 then
      { writeActive s1 (List.replicate (4 - alignOff) 0) with
          writePos := s1.writePos + (4 - alignOff) }
    else s1
  -- block_index[block] = write_pos as u32 >> align
  let entry := (s2.writePos % 4294967296) >>> 2
  let s3 := { s2 with blockIndex := s2.blockIndex.set block entry }
  -- read up to one block from the source
  let read := min CISO_BLOCK_SIZE (src.size - s3.srcPos)
  let data := blockRead src s3.srcPos
  let s4 := { s3 with srcPos := s3.srcPos + read }
  let compressed := compress data
  -- If the compressed size is greater than the original, prefer the original
  if compressed.length + 12 ≥ read then
    { writeActive s4 data with writePos := s4.writePos + read }
  else
    { writeActive s4 compressed with
        writePos := s4.writePos + compressed.length,
        blockIndex := s4.blockIndex.set block (entry ||| 2147483648) }

/-- The loop state after `k` iterations of the per-block loop. -/
def states (compress : List Nat → List Nat) (src : ModelFile) (fp : String)
    (s0 : LoopState) : Nat → LoopState
  | 0 => s0
  | k + 1 => loopStep compress src fp k (states compress src fp s0 k)

/-- The loop state entering the per-block loop: `X.1.cso` created, header
written, placeholder (all-zero) index of `total_blocks + 1` entries written,
`write_pos` at the position `write_block_index` returned, source cursor at
the image offset. -/
def initState (fp : String) (info : CsoImage) (imgOff : Nat) : LoopState :=
  let header := write_cso_info info
  let idx0 : List Nat := List.replicate (info.total_blocks + 1) 0
  let f1 := fileWrite (fileWrite { data := [], pos := 0 } header) (blockIndexBytes idx0)
  { file1 := f1, file2 := none, writePos := f1.pos, blockIndex := idx0,
    srcPos := imgOff, filesOpened := [fp ++ ".1.cso"] }

/-- Finalisation after the loop: store the final write position in the
terminator entry, seek `dest_f1` back to just after the header and rewrite the
whole index, then pad `dest_f1` and (when present) `dest_f2`. -/
def finalize (s : LoopState) : LoopState :=
  let last := s.blockIndex.length - 1
  let idx := s.blockIndex.set last ((s.writePos % 4294967296) >>> 2)
  let f1 := fileWrite { s.file1 with pos := CISO_HEADER_SIZE } (blockIndexBytes idx)
  { s with blockIndex := idx,
           file1 := pad_file f1,
           file2 := s.file2.map pad_file }

/-- Everything observable about one conversion. -/
structure ConvResult where
  info : CsoImage
  imgOff : Nat
  file1 : OutFile
  file2 : Option OutFile
  blockIndex : List Nat
  filesOpened : List String
  srcPosFinal : Nat
  retName : String

/-- Model of `compress_iso` on an already-opened source file: compute the
image info, write header and placeholder index, run the per-block loop, and
finalise.  Returns the primary output path `fp ++ ".1.cso"`. -/
def compress_iso (compress : List Nat → List Nat) (src : ModelFile)
    (fp : String) : Except String ConvResult :=
  match get_cso_info src with
  | .error e => .error e
  | .ok (info, cursor) =>
    let sN := states compress src fp (initState fp info cursor) info.total_blocks
    let sF := finalize sN
    .ok { info := info, imgOff := cursor, file1 := sF.file1, file2 := sF.file2,
          blockIndex := sF.blockIndex, filesOpened := sF.filesOpened,
          srcPosFinal := sF.srcPos, retName := fp ++ ".1.cso" }

/-- Offset field of an index entry: bits 0 through 30 (bit 31 is the
compressed flag). -/
def offsetField (e : Nat) : Nat := e % 2147483648

/-- Whichever output file the next write would go to. -/
def activeOf (s : LoopState) : OutFile :=
  match s.file2 with
  | some f => f
  | none => s.file1

/-- Projection: the loop state after `k` iterations of the conversion of
`src`, when the image layout is recognised. -/
def convStates (compress : List Nat → List Nat) (src : ModelFile) (fp : String)
    (k : Nat) : Option LoopState :=
  match get_cso_info src with
  | .error _ => none
  | .ok (info, cursor) => some (states compress src fp (initState fp info cursor) k)

/-- Projection: `write_pos` after `k` loop iterations (0 when the layout is
not recognised). -/
def convWritePos (compress : List Nat → List Nat) (src : ModelFile) (fp : String)
    (k : Nat) : Nat :=
  match convStates compress src fp k with
  | some s => s.writePos
  | none => 0

/-- Projection: `total_blocks` of the conversion of `src`. -/
def convNumBlocks (src : ModelFile) : Nat :=
  match get_cso_info src with
  | .error _ => 0
  | .ok (info, _) => info.total_blocks

/-- Projection: the final block index of a conversion ([] on failure). -/
def convIndex (compress : List Nat → List Nat) (src : ModelFile) (fp : String) :
    List Nat :=
  match compress_iso compress src fp with
  | .error _ => []
  | .ok r => r.blockIndex

/-- Projection: entry `i` of the final block index. -/
def convIndexGet (compress : List Nat → List Nat) (src : ModelFile) (fp : String)
    (i : Nat) : Nat :=
  (convIndex compress src fp).getD i 0

/-- Projection: the names passed to `File::create`, in order. -/
def convFilesOpened (compress : List Nat → List Nat) (src : ModelFile)
    (fp : String) : List String :=
  match compress_iso compress src fp with
  | .error _ => []
  | .ok r => r.filesOpened

/-- Projection: the first `n` bytes of the second output file, when it exists. -/
def convFile2Take (compress : List Nat → List Nat) (src : ModelFile) (fp : String)
    (n : Nat) : Option (List Nat) :=
  match compress_iso compress src fp with
  | .error _ => none
  | .ok r => r.file2.map fun f => f.data.take n

/-- Projection: `total_bytes` of a successful conversion. -/
def convTotalBytes (compress : List Nat → List Nat) (src : ModelFile)
    (fp : String) : Nat :=
  match compress_iso compress src fp with
  | .error _ => 0
  | .ok r => r.info.total_bytes

/-- Projection: `total_blocks` of a successful conversion. -/
def convTotalBlocks (compress : List Nat → List Nat) (src : ModelFile)
    (fp : String) : Nat :=
  match compress_iso compress src fp with
  | .error _ => 0
  | .ok r => r.info.total_blocks

/-- Projection: the source cursor when the conversion finishes. -/
def convSrcPosFinal (compress : List Nat → List Nat) (src : ModelFile)
    (fp : String) : Nat :=
  match compress_iso compress src fp with
  | .error _ => 0
  | .ok r => r.srcPosFinal

/-- Projection: length of the final block index. -/
def convIndexLen (compress : List Nat → List Nat) (src : ModelFile)
    (fp : String) : Nat :=
  (convIndex compress src fp).length

/-- Model of `get_filename_from_path`: the path component after the last
slash. -/
def get_filename_from_path (fp : String) : String :=
  ((fp.splitOn "/").reverse).headD ""

/-- Model of `Path::extension`: the part of the file name after the last dot,
empty when there is no embedded dot or the name is a lone dot-file. -/
def pathExt (fp : String) : String :=
  let name := get_filename_from_path fp
  match name.splitOn "." with
  | [] => ""
  | [_] => ""
  | p :: rest => if p = "" ∧ rest.length = 1 then "" else (rest.reverse).headD ""

/-- Model of `is_iso`: extension is `xiso` or `iso`. -/
def is_iso (fp : String) : Bool :=
  match pathExt fp with
  | "xiso" => true
  | "iso" => true
  | _ => false

/-- A console line: standard output (`println`) or standard error
(`eprintln`). -/
inductive OutLine where
  | out : String → OutLine
  | err : String → OutLine
deriving DecidableEq, Repr

/-- One full per-file conversion as the driver sees it: `File::open` (the
filesystem is modelled as `fs : String → Except String ModelFile`) followed by
`compress_iso`, returning the primary output path. -/
def convertOne (compress : List Nat → List Nat)
    (fs : String → Except String ModelFile) (fp : String) :
    Except String String :=
  match fs fp with
  | .error e => .error e
  | .ok f =>
    match compress_iso compress f fp with
    | .error e => .error e
    | .ok r => .ok r.retName

/-- The `[i/n]` counter string printed by the driver. -/
def fancyFile (i total : Nat) : String :=
  "[" ++ toString (i + 1) ++ "/" ++ toString total ++ "]"

/-- The driver loop of `main`: for each (enumerated) image argument, print the
start line, convert, and on success or failure print the result line and
continue with the next argument. -/
def mainLoop (convert : String → Except String String) (total : Nat) :
    List (Nat × String) → List OutLine
  | [] => []
  | (i, fname) :: rest =>
    let startLine := OutLine.out
      (fancyFile i total ++ " Converting image " ++ fname ++ "...")
    let resLine := match convert fname with
      | .ok fp => OutLine.out (fancyFile i total ++ " Converted image " ++ fp ++ "!")
      | .error e => OutLine.err ("Error converting " ++ fname ++ ": " ++ e)
    startLine :: resLine :: mainLoop convert total rest

/-- Model of `main`: `args` includes the program name; with no file arguments
print the usage line; otherwise run the loop over the image arguments.  The
second component is the process exit code: `main` returns `()` on every path,
so the process always exits with 0. -/
def mainRun (compress : List Nat → List Nat)
    (fs : String → Except String ModelFile) (args : List String) :
    List OutLine × Nat :=
  if args.length = 1 then
    ([OutLine.out (get_filename_from_path (args.headD "") ++
      " usage: <isos to convert>")], 0)
  else
    (mainLoop (convertOne compress fs) (args.length - 1)
      (((args.drop 1).filter is_iso).enum), 0)

/-- A compressor whose output never helps: used as a concrete instantiation
(any `compress` is allowed by the theorems). -/
def cId : List Nat → List Nat := fun d => d

/-- A compressor producing empty output: makes every block take the
compressed branch while writing nothing. -/
def cZero : List Nat → List Nat := fun _ => []

/-- A concrete 66556-byte source file carrying the XDVDFS signature at
0x10000: payload offset 0, 66556 payload bytes, which is 32 full blocks plus
a 1020-byte tail. -/
def srcSmall : ModelFile :=
  { size := 66556,
    byteAt := fun x =>
      if 65536 ≤ x ∧ x < 65556 then (xbox_media_header.getD (x - 65536) 0) else 0 }

/-- A concrete 8573132800-byte source file (4186100 blocks) carrying the
XDVDFS signature at 0x10000: big enough to overflow `FATX_MAX_SIZE` twice
when every block is stored raw. -/
def srcBig : ModelFile :=
  { size := 8573132800,
    byteAt := fun x =>
      if 65536 ≤ x ∧ x < 65556 then (xbox_media_header.getD (x - 65536) 0) else 0 }

/-- A file with no contents at all: both signature probes fail to read. -/
def srcEmpty : ModelFile := { size := 0, byteAt := fun _ => 0 }

/-- A loop state whose write position has just crossed the FATX ceiling,
used to exercise the split branch of `loopStep` on its own. -/
def splitDemoState : LoopState :=
  { file1 := { data := [], pos := 0 }, file2 := none, writePos := 4290732033,
    blockIndex := [0, 0], srcPos := 0, filesOpened := [] }

/-- The image descriptor computed for `srcBig` (payload offset 0). -/
def bigInfo : CsoImage :=
  { version := 2, align := 2, total_bytes := 8573132800, total_blocks := 4186100 }

/-- The loop state entering the block loop of the `srcBig` conversion. -/
def s0Big : LoopState := initState "X" bigInfo 0

/-! ## Basic lemmas about the file model -/

lemma fileWrite_append (f : OutFile) (buf : List Nat) (h : f.pos = f.data.length) :
    fileWrite f buf = { data := f.data ++ buf, pos := f.data.length + buf.length } := by
  unfold fileWrite
  rw [h]
  have hd : f.data.drop (f.data.length + buf.length) = [] :=
    List.drop_eq_nil_of_le (by omega)
  simp [hd]

lemma pad_file_data (f : OutFile) :
    (pad_file f).data =
      f.data ++ List.replicate (1024 - f.data.length % 1024) 0 := by
  unfold pad_file
  rw [fileWrite_append _ _ rfl]

lemma pad_file_length (f : OutFile) :
    (pad_file f).data.length = f.data.length + (1024 - f.data.length % 1024) := by
  rw [pad_file_data]
  simp

lemma pad_file_mod (f : OutFile) : (pad_file f).data.length % 1024 = 0 := by
  rw [pad_file_length]
  omega

/-- Claim C10: `pad_file` always writes exactly `1024 - (length mod 1024)`
zero bytes at the end of the file, hence at least one byte; a file whose
length is already a multiple of 1024 grows by a full 1024 bytes. -/
theorem C10_pad_always_writes (f : OutFile) :
    (pad_file f).data = f.data ++ List.replicate (1024 - f.data.length % 1024) 0 ∧
    1 ≤ 1024 - f.data.length % 1024 ∧
    (pad_file f).data.length = f.data.length + (1024 - f.data.length % 1024) := by
  refine ⟨pad_file_data f, ?_, pad_file_length f⟩
  omega

/-- Claim C7: every produced physical file of a conversion has a total length
that is a multiple of 1024 bytes, obtained by appending zero bytes. -/
theorem C7_file_length_multiple_1024 (compress : List Nat → List Nat)
    (src : ModelFile) (fp : String) :
    match compress_iso compress src fp with
    | .error _ => True
    | .ok r =>
      (r.file1.data.length % 1024 = 0 ∧
        ∃ d, r.file1.data = d ++ List.replicate (1024 - d.length % 1024) 0) ∧
      (match r.file2 with
       | some f2 =>
         f2.data.length % 1024 = 0 ∧
         ∃ d, f2.data = d ++ List.replicate (1024 - d.length % 1024) 0
       | none => True) := by
  unfold compress_iso
  cases hg : get_cso_info src with
  | error e => simp
  | ok ic =>
    simp only [finalize]
    refine ⟨⟨pad_file_mod _, _, pad_file_data _⟩, ?_⟩
    cases h2 : (states compress src fp (initState fp ic.1 ic.2) ic.1.total_blocks).file2 with
    | none => trivial
    | some f2 => exact ⟨pad_file_mod _, _, pad_file_data _⟩

/-! ## Signature scanning -/

lemma get_image_offset_cases (f : ModelFile) :
    get_image_offset f =
      (if readExact f XBOX_MEDIA_HEADER_REDUMP_OFFSET 20 = .ok xbox_media_header then
        .ok 0x18300000
      else if readExact f XBOX_MEDIA_HEADER_XDVDFS_OFFSET 20 = .ok xbox_media_header then
        .ok 0
      else
        .error "could not get image offset") := by
  unfold get_image_offset
  rcases h1 : readExact f XBOX_MEDIA_HEADER_REDUMP_OFFSET 20 with e1 | l1
  · rcases h2 : readExact f XBOX_MEDIA_HEADER_XDVDFS_OFFSET 20 with e2 | l2
    · simp [h1, h2]
      rw [if_neg (by decide), if_neg (by decide)]
    · by_cases hl2 : l2 = xbox_media_header
      · simp [h1, h2, hl2]
        decide
      · simp [h1, h2, hl2]
        decide
  · by_cases hl1 : l1 = xbox_media_header
    · simp [h1, hl1]
    · rcases h2 : readExact f XBOX_MEDIA_HEADER_XDVDFS_OFFSET 20 with e2 | l2
      · simp [h1, h2, hl1]
      · by_cases hl2 : l2 = xbox_media_header
        · simp [h1, h2, hl1, hl2]
        · simp [h1, h2, hl1, hl2]

/-- Claim C6: payload-offset detection returns 0x18300000 when the signature
is read at the redump probe offset 0x18310000, returns 0 when (the redump
probe failing) the signature is read at the XDVDFS probe offset 0x10000, and
otherwise fails with the layout-detection error. -/
theorem C6_image_offset_cases (f : ModelFile) :
    get_image_offset f =
      (if readExact f XBOX_MEDIA_HEADER_REDUMP_OFFSET 20 = .ok xbox_media_header then
        .ok 0x18300000
      else if readExact f XBOX_MEDIA_HEADER_XDVDFS_OFFSET 20 = .ok xbox_media_header then
        .ok 0
      else
        .error "could not get image offset") :=
  get_image_offset_cases f

/-- Counterexample to claim C9: on an empty source file both probe reads fail
with the I/O error "failed to fill whole buffer", yet `get_image_offset`
reports the layout-detection error instead of surfacing that I/O error. -/
theorem C9_counterexample_probe_error_swallowed :
    readExact srcEmpty XBOX_MEDIA_HEADER_REDUMP_OFFSET 20 =
      .error "failed to fill whole buffer" ∧
    readExact srcEmpty XBOX_MEDIA_HEADER_XDVDFS_OFFSET 20 =
      .error "failed to fill whole buffer" ∧
    get_image_offset srcEmpty = .error "could not get image offset" ∧
    "could not get image offset" ≠ "failed to fill whole buffer" := by
  exact ⟨by decide, by decide, by decide, by decide⟩

/-- Claim C9 (amended): an `open` failure is surfaced verbatim for that file,
but I/O failures while probing the signature offsets are discarded:
`get_image_offset` can only succeed with 0x18300000 or 0, or fail with the
layout-detection error — never with the underlying I/O error message. -/
theorem C9_amended_io_errors (compress : List Nat → List Nat)
    (fs : String → Except String ModelFile) (fp : String) (f : ModelFile) :
    (match fs fp with
     | .error e => convertOne compress fs fp = .error e
     | .ok _ => True) ∧
    (get_image_offset f = .ok 0x18300000 ∨ get_image_offset f = .ok 0 ∨
      get_image_offset f = .error "could not get image offset") := by
  constructor
  · cases h : fs fp with
    | error e => simp [convertOne, h]
    | ok mf => trivial
  · rw [get_image_offset_cases f]
    by_cases h1 : readExact f XBOX_MEDIA_HEADER_REDUMP_OFFSET 20 = .ok xbox_media_header
    · left
      rw [if_pos h1]
    · rw [if_neg h1]
      by_cases h2 : readExact f XBOX_MEDIA_HEADER_XDVDFS_OFFSET 20 = .ok xbox_media_header
      · right
        left
        rw [if_pos h2]
      · right
        right
        rw [if_neg h2]

/-! ## Per-block step lemmas -/

lemma writeActive_writePos (s : LoopState) (buf : List Nat) :
    (writeActive s buf).writePos = s.writePos := by
  rcases s with ⟨f1, f2, w, bi, sp, fo⟩
  cases f2 <;> rfl

lemma writeActive_blockIndex (s : LoopState) (buf : List Nat) :
    (writeActive s buf).blockIndex = s.blockIndex := by
  rcases s with ⟨f1, f2, w, bi, sp, fo⟩
  cases f2 <;> rfl

lemma writeActive_srcPos (s : LoopState) (buf : List Nat) :
    (writeActive s buf).srcPos = s.srcPos := by
  rcases s with ⟨f1, f2, w, bi, sp, fo⟩
  cases f2 <;> rfl

lemma writeActive_filesOpened (s : LoopState) (buf : List Nat) :
    (writeActive s buf).filesOpened = s.filesOpened := by
  rcases s with ⟨f1, f2, w, bi, sp, fo⟩
  cases f2 <;> rfl

lemma activeOf_writeActive (s : LoopState) (buf : List Nat) :
    activeOf (writeActive s buf) = fileWrite (activeOf s) buf := by
  rcases s with ⟨f1, f2, w, bi, sp, fo⟩
  cases f2 <;> rfl

lemma writeActive_file2_none (s : LoopState) (buf : List Nat) (h : s.file2 = none) :
    (writeActive s buf).file2 = none := by
  rcases s with ⟨f1, f2, w, bi, sp, fo⟩
  cases f2 with
  | none => rfl
  | some f => cases h

lemma writeActive_file2_some (s : LoopState) (buf : List Nat) (f : OutFile)
    (h : s.file2 = some f) :
    (writeActive s buf).file2 = some (fileWrite f buf) ∧
    (writeActive s buf).file1 = s.file1 := by
  rcases s with ⟨f1, f2, w, bi, sp, fo⟩
  cases f2 with
  | none => cases h
  | some g =>
    cases h
    exact ⟨rfl, rfl⟩

lemma blockRead_length (src : ModelFile) (p : Nat) :
    (blockRead src p).length = min CISO_BLOCK_SIZE (src.size - p) := by
  simp [blockRead]

lemma entry_testBit31 (w : Nat) : ((w % 4294967296) >>> 2).testBit 31 = false := by
  apply Nat.testBit_lt_two_pow
  rw [Nat.shiftRight_eq_div_pow]
  omega

lemma entry_or_testBit31 (w : Nat) :
    (((w % 4294967296) >>> 2) ||| 2147483648).testBit 31 = true := by
  rw [Nat.testBit_lor, entry_testBit31]
  decide

lemma getD_set_self (l : List Nat) (b e : Nat) (hb : b < l.length) :
    (l.set b e).getD b 0 = e := by
  rw [List.getD_eq_getElem?_getD, List.getElem?_set_eq_of_lt e hb]
  rfl

lemma getD_set_other (l : List Nat) (b i e : Nat) (h : b ≠ i) :
    (l.set b e).getD i 0 = l.getD i 0 := by
  rw [List.getD_eq_getElem?_getD, List.getD_eq_getElem?_getD, List.getElem?_set_ne h]

lemma loopStep_noSplit_aligned_raw (compress : List Nat → List Nat)
    (src : ModelFile) (fp : String) (b : Nat) (s : LoopState)
    (hw : ¬ s.writePos > FATX_MAX_SIZE)
    (ha : s.writePos % 4 = 0)
    (hc : (compress (blockRead src s.srcPos)).length + 12 ≥
      min CISO_BLOCK_SIZE (src.size - s.srcPos)) :
    loopStep compress src fp b s =
      { writeActive
          { s with blockIndex := s.blockIndex.set b ((s.writePos % 4294967296) >>> 2),
                   srcPos := s.srcPos + min CISO_BLOCK_SIZE (src.size - s.srcPos) }
          (blockRead src s.srcPos) with
        writePos := s.writePos + min CISO_BLOCK_SIZE (src.size - s.srcPos) } := by
  simp only [loopStep]
  rw [if_neg hw, ha, if_neg (by omega : ¬ (0:Nat) > 0), if_pos hc]

lemma loopStep_noSplit_aligned_comp (compress : List Nat → List Nat)
    (src : ModelFile) (fp : String) (b : Nat) (s : LoopState)
    (hw : ¬ s.writePos > FATX_MAX_SIZE)
    (ha : s.writePos % 4 = 0)
    (hc : ¬ (compress (blockRead src s.srcPos)).length + 12 ≥
      min CISO_BLOCK_SIZE (src.size - s.srcPos)) :
    loopStep compress src fp b s =
      { writeActive
          { s with blockIndex := s.blockIndex.set b ((s.writePos % 4294967296) >>> 2),
                   srcPos := s.srcPos + min CISO_BLOCK_SIZE (src.size - s.srcPos) }
          (compress (blockRead src s.srcPos)) with
        writePos := s.writePos + (compress (blockRead src s.srcPos)).length,
        blockIndex := s.blockIndex.set b
          ((((s.writePos % 4294967296) >>> 2) ||| 2147483648)) } := by
  simp only [loopStep]
  rw [if_neg hw, ha, if_neg (by omega : ¬ (0:Nat) > 0), if_neg hc, List.set_set]

lemma loopStep_noSplit_unaligned_raw (compress : List Nat → List Nat)
    (src : ModelFile) (fp : String) (b : Nat) (s : LoopState)
    (hw : ¬ s.writePos > FATX_MAX_SIZE)
    (ha : ¬ s.writePos % 4 = 0)
    (hc : (compress (blockRead src s.srcPos)).length + 12 ≥
      min CISO_BLOCK_SIZE (src.size - s.srcPos)) :
    loopStep compress src fp b s =
      { writeActive
          { (writeActive s (List.replicate (4 - s.writePos % 4) 0)) with
              writePos := s.writePos + (4 - s.writePos % 4),
              blockIndex := s.blockIndex.set b
                (((s.writePos + (4 - s.writePos % 4)) % 4294967296) >>> 2),
              srcPos := s.srcPos + min CISO_BLOCK_SIZE (src.size - s.srcPos) }
          (blockRead src s.srcPos) with
        writePos := s.writePos + (4 - s.writePos % 4) +
          min CISO_BLOCK_SIZE (src.size - s.srcPos) } := by
  simp only [loopStep]
  rw [if_neg hw, if_pos (by omega : s.writePos % 4 > 0)]
  simp only [writeActive_srcPos, writeActive_blockIndex, writeActive_writePos]
  rw [if_pos hc]

lemma loopStep_noSplit_unaligned_comp (compress : List Nat → List Nat)
    (src : ModelFile) (fp : String) (b : Nat) (s : LoopState)
    (hw : ¬ s.writePos > FATX_MAX_SIZE)
    (ha : ¬ s.writePos % 4 = 0)
    (hc : ¬ (compress (blockRead src s.srcPos)).length + 12 ≥
      min CISO_BLOCK_SIZE (src.size - s.srcPos)) :
    loopStep compress src fp b s =
      { writeActive
          { (writeActive s (List.replicate (4 - s.writePos % 4) 0)) with
              writePos := s.writePos + (4 - s.writePos % 4),
              blockIndex := s.blockIndex.set b
                (((s.writePos + (4 - s.writePos % 4)) % 4294967296) >>> 2),
              srcPos := s.srcPos + min CISO_BLOCK_SIZE (src.size - s.srcPos) }
          (compress (blockRead src s.srcPos)) with
        writePos := s.writePos + (4 - s.writePos % 4) +
          (compress (blockRead src s.srcPos)).length,
        blockIndex := s.blockIndex.set b
          (((((s.writePos + (4 - s.writePos % 4)) % 4294967296) >>> 2) |||
            2147483648)) } := by
  simp only [loopStep]
  rw [if_neg hw, if_pos (by omega : s.writePos % 4 > 0)]
  simp only [writeActive_srcPos, writeActive_blockIndex, writeActive_writePos]
  rw [if_neg hc, List.set_set]

lemma activeOf_up1 (X : LoopState) (v : Nat) :
    activeOf { X with writePos := v } = activeOf X := rfl

lemma activeOf_up2 (X : LoopState) (v : Nat) (bi : List Nat) :
    activeOf { X with writePos := v, blockIndex := bi } = activeOf X := rfl

lemma activeOf_up3 (X : LoopState) (bi : List Nat) (p : Nat) :
    activeOf { X with blockIndex := bi, srcPos := p } = activeOf X := rfl

lemma activeOf_up4 (X : LoopState) (v : Nat) (bi : List Nat) (p : Nat) :
    activeOf { X with writePos := v, blockIndex := bi, srcPos := p } = activeOf X := rfl

lemma store_decision_noSplit (compress : List Nat → List Nat) (src : ModelFile)
    (fp : String) (b : Nat) (s : LoopState)
    (hb : b < s.blockIndex.length)
    (hw : s.writePos ≤ FATX_MAX_SIZE)
    (hpos : (activeOf s).pos = (activeOf s).data.length) :
    (((loopStep compress src fp b s).blockIndex.getD b 0).testBit 31 = true ↔
      (compress (blockRead src s.srcPos)).length + 12 <
        min CISO_BLOCK_SIZE (src.size - s.srcPos)) ∧
    (activeOf (loopStep compress src fp b s)).data =
      (activeOf s).data ++ List.replicate ((4 - s.writePos % 4) % 4) 0 ++
      (if (compress (blockRead src s.srcPos)).length + 12 <
          min CISO_BLOCK_SIZE (src.size - s.srcPos)
       then compress (blockRead src s.srcPos)
       else blockRead src s.srcPos) := by
  have hw' : ¬ s.writePos > FATX_MAX_SIZE := by omega
  by_cases ha : s.writePos % 4 = 0
  · by_cases hc : (compress (blockRead src s.srcPos)).length + 12 ≥
        min CISO_BLOCK_SIZE (src.size - s.srcPos)
    · rw [loopStep_noSplit_aligned_raw compress src fp b s hw' ha hc]
      have hpad : (4 - s.writePos % 4) % 4 = 0 := by omega
      constructor
      · simp only [writeActive_blockIndex]
        rw [getD_set_self _ _ _ hb, entry_testBit31]
        constructor
        · intro h
          exact absurd h (by simp)
        · intro h
          omega
      · rw [activeOf_up1, activeOf_writeActive, activeOf_up3,
          fileWrite_append _ _ hpos, if_neg (by omega), hpad]
        simp
    · rw [loopStep_noSplit_aligned_comp compress src fp b s hw' ha hc]
      have hpad : (4 - s.writePos % 4) % 4 = 0 := by omega
      constructor
      · rw [getD_set_self _ _ _ hb, entry_or_testBit31]
        constructor
        · intro _
          omega
        · intro _
          rfl
      · rw [activeOf_up2, activeOf_writeActive, activeOf_up3,
          fileWrite_append _ _ hpos, if_pos (by omega), hpad]
        simp
  · have hpad : (4 - s.writePos % 4) % 4 = 4 - s.writePos % 4 := by omega
    have hpos2 : (activeOf (writeActive s (List.replicate (4 - s.writePos % 4) 0))).pos =
        (activeOf (writeActive s (List.replicate (4 - s.writePos % 4) 0))).data.length := by
      rw [activeOf_writeActive, fileWrite_append _ _ hpos]
      simp
    by_cases hc : (compress (blockRead src s.srcPos)).length + 12 ≥
        min CISO_BLOCK_SIZE (src.size - s.srcPos)
    · rw [loopStep_noSplit_unaligned_raw compress src fp b s hw' ha hc]
      constructor
      · simp only [writeActive_blockIndex]
        rw [getD_set_self _ _ _ hb, entry_testBit31]
        constructor
        · intro h
          exact absurd h (by simp)
        · intro h
          omega
      · rw [activeOf_up1, activeOf_writeActive, activeOf_up4, activeOf_writeActive,
          fileWrite_append _ _ hpos]
        rw [fileWrite_append _ _ (by simp), if_neg (by omega), hpad]
    · rw [loopStep_noSplit_unaligned_comp compress src fp b s hw' ha hc]
      constructor
      · rw [getD_set_self _ _ _ hb, entry_or_testBit31]
        constructor
        · intro _
          omega
        · intro _
          rfl
      · rw [activeOf_up2, activeOf_writeActive, activeOf_up4, activeOf_writeActive,
          fileWrite_append _ _ hpos]
        rw [fileWrite_append _ _ (by simp), if_pos (by omega), hpad]

/-! ## Driver loop -/

lemma mainLoop_eq_flatMap (convert : String → Except String String) (total : Nat)
    (l : List (Nat × String)) :
    mainLoop convert total l =
      l.flatMap fun p =>
        [OutLine.out (fancyFile p.1 total ++ " Converting image " ++ p.2 ++ "..."),
         match convert p.2 with
         | .ok fp => OutLine.out (fancyFile p.1 total ++ " Converted image " ++ fp ++ "!")
         | .error e => OutLine.err ("Error converting " ++ p.2 ++ ": " ++ e)] := by
  induction l with
  | nil => rfl
  | cons p rest ih =>
    rcases p with ⟨i, fname⟩
    simp only [mainLoop, ih, List.flatMap_cons]
    rfl

/-- Claim C8: the driver prints, for every image argument in order, a start
line followed by a success line or an error line naming that input path, and
a failed conversion never removes the lines of the later arguments; the exit
code is 0 no matter how many conversions fail. -/
theorem C8_batch_continues (compress : List Nat → List Nat)
    (fs : String → Except String ModelFile) (args : List String) :
    (mainRun compress fs args).2 = 0 ∧
    (mainRun compress fs args).1 =
      (if args.length = 1 then
        [OutLine.out (get_filename_from_path (args.headD "") ++
          " usage: <isos to convert>")]
      else
        (((args.drop 1).filter is_iso).enum).flatMap fun p =>
          [OutLine.out (fancyFile p.1 (args.length - 1) ++ " Converting image " ++
            p.2 ++ "..."),
           match convertOne compress fs p.2 with
           | .ok fp => OutLine.out (fancyFile p.1 (args.length - 1) ++
              " Converted image " ++ fp ++ "!")
           | .error e => OutLine.err ("Error converting " ++ p.2 ++ ": " ++ e)]) := by
  unfold mainRun
  by_cases h : args.length = 1
  · rw [if_pos h, if_pos h]
    exact ⟨rfl, rfl⟩
  · rw [if_neg h, if_neg h]
    exact ⟨rfl, mainLoop_eq_flatMap _ _ _⟩

/-! ## Loop-wide projections -/

lemma loopStep_srcPos (compress : List Nat → List Nat) (src : ModelFile)
    (fp : String) (b : Nat) (s : LoopState) :
    (loopStep compress src fp b s).srcPos =
      s.srcPos + min CISO_BLOCK_SIZE (src.size - s.srcPos) := by
  unfold loopStep
  simp [apply_ite (fun x : LoopState => x.srcPos), writeActive_srcPos]

lemma loopStep_blockIndex_length (compress : List Nat → List Nat)
    (src : ModelFile) (fp : String) (b : Nat) (s : LoopState) :
    (loopStep compress src fp b s).blockIndex.length = s.blockIndex.length := by
  unfold loopStep
  simp [apply_ite (fun x : LoopState => x.blockIndex.length),
    writeActive_blockIndex]

lemma splitState_writePos (s : LoopState) (fp : String) :
    ({ s with
        file2 := some ⟨[], 0⟩
        writePos := 0
        filesOpened := s.filesOpened ++ [fp ++ ".2.cso"] } : LoopState).writePos = 0 :=
  rfl

lemma loopStep_split_chain (compress : List Nat → List Nat) (src : ModelFile)
    (fp : String) (b : Nat) (s : LoopState)
    (hw : s.writePos > FATX_MAX_SIZE) :
    loopStep compress src fp b s =
      loopStep compress src fp b
        { s with
            file2 := some ⟨[], 0⟩
            writePos := 0
            filesOpened := s.filesOpened ++ [fp ++ ".2.cso"] } := by
  simp only [loopStep]
  rw [if_pos hw]
  rw [if_neg (by simp : ¬ (0:Nat) > FATX_MAX_SIZE)]

lemma loopStep_blockIndex_other_noSplit (compress : List Nat → List Nat)
    (src : ModelFile) (fp : String) (b : Nat) (s : LoopState) (i : Nat)
    (h : b ≠ i) (hw : ¬ s.writePos > FATX_MAX_SIZE) :
    (loopStep compress src fp b s).blockIndex.getD i 0 =
      s.blockIndex.getD i 0 := by
  by_cases ha : s.writePos % 4 = 0
  · by_cases hc : (compress (blockRead src s.srcPos)).length + 12 ≥
        min CISO_BLOCK_SIZE (src.size - s.srcPos)
    · rw [loopStep_noSplit_aligned_raw compress src fp b s hw ha hc]
      simp only [writeActive_blockIndex]
      exact getD_set_other _ _ _ _ h
    · rw [loopStep_noSplit_aligned_comp compress src fp b s hw ha hc]
      exact getD_set_other _ _ _ _ h
  · by_cases hc : (compress (blockRead src s.srcPos)).length + 12 ≥
        min CISO_BLOCK_SIZE (src.size - s.srcPos)
    · rw [loopStep_noSplit_unaligned_raw compress src fp b s hw ha hc]
      simp only [writeActive_blockIndex]
      exact getD_set_other _ _ _ _ h
    · rw [loopStep_noSplit_unaligned_comp compress src fp b s hw ha hc]
      exact getD_set_other _ _ _ _ h

lemma loopStep_blockIndex_other (compress : List Nat → List Nat)
    (src : ModelFile) (fp : String) (b : Nat) (s : LoopState) (i : Nat)
    (h : b ≠ i) :
    (loopStep compress src fp b s).blockIndex.getD i 0 =
      s.blockIndex.getD i 0 := by
  by_cases hw : s.writePos > FATX_MAX_SIZE
  · rw [loopStep_split_chain compress src fp b s hw]
    exact loopStep_blockIndex_other_noSplit compress src fp b _ i h (by simp)
  · exact loopStep_blockIndex_other_noSplit compress src fp b s i h hw

lemma states_blockIndex_length (compress : List Nat → List Nat) (src : ModelFile)
    (fp : String) (s0 : LoopState) (k : Nat) :
    (states compress src fp s0 k).blockIndex.length = s0.blockIndex.length := by
  induction k with
  | zero => rfl
  | succ k ih => rw [states, loopStep_blockIndex_length, ih]

lemma states_srcPos_closed (compress : List Nat → List Nat) (src : ModelFile)
    (fp : String) (s0 : LoopState) (off B : Nat) (h0 : s0.srcPos = off)
    (hB : off + 2048 * B ≤ src.size) :
    ∀ k, k ≤ B → (states compress src fp s0 k).srcPos = off + 2048 * k := by
  intro k
  induction k with
  | zero =>
    intro _
    simpa [states] using h0
  | succ k ih =>
    intro hk
    rw [states, loopStep_srcPos, ih (by omega)]
    have h1 : 2048 * (k + 1) ≤ 2048 * B := Nat.mul_le_mul_left _ hk
    have h2 : min CISO_BLOCK_SIZE (src.size - (off + 2048 * k)) = 2048 := by
      show min 2048 (src.size - (off + 2048 * k)) = 2048
      omega
    omega

lemma finalize_srcPos (s : LoopState) : (finalize s).srcPos = s.srcPos := rfl

lemma finalize_filesOpened (s : LoopState) : (finalize s).filesOpened = s.filesOpened := rfl

lemma finalize_blockIndex_length (s : LoopState) :
    (finalize s).blockIndex.length = s.blockIndex.length := by
  unfold finalize
  simp

lemma initState_blockIndex_length (fp : String) (info : CsoImage) (off : Nat) :
    (initState fp info off).blockIndex.length = info.total_blocks + 1 := by
  simp [initState]

lemma initState_srcPos (fp : String) (info : CsoImage) (off : Nat) :
    (initState fp info off).srcPos = off := rfl

/-- Claim C3 (amended): `total_blocks` is `total_bytes / 2048` rounded down;
the index has `total_blocks + 1` entries; and the source cursor finishes at
`image_offset + 2048 * total_blocks`, so the trailing partial block
(`total_bytes mod 2048` bytes) is never read — there is no short final read,
and a payload shorter than one block would give `total_blocks = 0` and a
1-entry index. -/
theorem C3_amended_floor_blocks (compress : List Nat → List Nat)
    (src : ModelFile) (fp : String) :
    match compress_iso compress src fp with
    | .error _ => True
    | .ok r =>
      r.info.total_blocks = r.info.total_bytes / 2048 ∧
      r.blockIndex.length = r.info.total_blocks + 1 ∧
      r.srcPosFinal = r.imgOff + 2048 * r.info.total_blocks := by
  unfold compress_iso
  rcases hg : get_cso_info src with e | io
  · trivial
  · rcases io with ⟨info, off⟩
    unfold get_cso_info at hg
    rcases himg : get_image_offset src with e' | off'
    · rw [himg] at hg
      cases hg
    · rw [himg] at hg
      injection hg with hg'
      injection hg' with hinfo hoff
      subst hoff
      subst hinfo
      refine ⟨rfl, ?_, ?_⟩
      · rw [finalize_blockIndex_length, states_blockIndex_length,
          initState_blockIndex_length]
      · show (finalize (states compress src fp
            (initState fp ⟨2, 2, src.size - off', (src.size - off') / CISO_BLOCK_SIZE⟩ off')
            ((src.size - off') / CISO_BLOCK_SIZE))).srcPos =
          off' + 2048 * ((src.size - off') / CISO_BLOCK_SIZE)
        rw [finalize_srcPos]
        simp only [show CISO_BLOCK_SIZE = 2048 from rfl]
        by_cases hB0 : (src.size - off') / 2048 = 0
        · rw [hB0]
          show (initState fp _ off').srcPos = _
          rw [initState_srcPos]
          omega
        · have hd : (src.size - off') / 2048 * 2048 ≤ src.size - off' :=
            Nat.div_mul_le_self _ _
          have hpos : 2048 ≤ src.size - off' := by
            by_contra hlt
            exact hB0 (Nat.div_eq_of_lt (by omega))
          exact states_srcPos_closed compress src fp _ off'
            ((src.size - off') / 2048) (initState_srcPos _ _ _) (by omega) _ le_rfl

set_option maxRecDepth 8000 in
/-- Counterexample to claim C3: a recognised 66556-byte payload (not a
multiple of 2048) gives `total_blocks = 32` with a 33-entry index, and the
source cursor stops at byte 65536: the final 1020 bytes are never read, so
there is no short final read and the payload is not fully converted (and a
sub-block payload would give 0 blocks, not 1). -/
theorem C3_counterexample_tail_never_read :
    convTotalBytes cZero srcSmall "Y" = 66556 ∧
    convTotalBlocks cZero srcSmall "Y" = 32 ∧
    convIndexLen cZero srcSmall "Y" = 33 ∧
    convSrcPosFinal cZero srcSmall "Y" = 65536 ∧
    (66556 : Nat) % 2048 ≠ 0 ∧ (65536 : Nat) < 66556 := by
  exact ⟨by decide, by decide, by decide, by decide, by decide, by decide⟩

/-! ## First-file layout -/

lemma writeActive_file1_append (s : LoopState) (buf : List Nat)
    (hpos : s.file1.pos = s.file1.data.length) :
    (writeActive s buf).file1.pos = (writeActive s buf).file1.data.length ∧
    ∃ t, (writeActive s buf).file1.data = s.file1.data ++ t := by
  rcases s with ⟨f1, f2, w, bi, sp, fo⟩
  cases f2 with
  | some f =>
    refine ⟨hpos, [], ?_⟩
    show f1.data = f1.data ++ []
    simp
  | none =>
    refine ⟨?_, buf, ?_⟩
    · show (fileWrite f1 buf).pos = (fileWrite f1 buf).data.length
      rw [fileWrite_append _ _ hpos]
      simp
    · show (fileWrite f1 buf).data = f1.data ++ buf
      rw [fileWrite_append _ _ hpos]

lemma loopStep_file1_append_noSplit (compress : List Nat → List Nat)
    (src : ModelFile) (fp : String) (b : Nat) (s : LoopState)
    (hw : ¬ s.writePos > FATX_MAX_SIZE)
    (hpos : s.file1.pos = s.file1.data.length) :
    (loopStep compress src fp b s).file1.pos =
      (loopStep compress src fp b s).file1.data.length ∧
    ∃ t, (loopStep compress src fp b s).file1.data = s.file1.data ++ t := by
  by_cases ha : s.writePos % 4 = 0
  · by_cases hc : (compress (blockRead src s.srcPos)).length + 12 ≥
        min CISO_BLOCK_SIZE (src.size - s.srcPos)
    · rw [loopStep_noSplit_aligned_raw compress src fp b s hw ha hc]
      exact writeActive_file1_append _ _ hpos
    · rw [loopStep_noSplit_aligned_comp compress src fp b s hw ha hc]
      exact writeActive_file1_append _ _ hpos
  · by_cases hc : (compress (blockRead src s.srcPos)).length + 12 ≥
        min CISO_BLOCK_SIZE (src.size - s.srcPos)
    · rw [loopStep_noSplit_unaligned_raw compress src fp b s hw ha hc]
      obtain ⟨h1, t1, h2⟩ :=
        writeActive_file1_append s (List.replicate (4 - s.writePos % 4) 0) hpos
      obtain ⟨h3, t2, h4⟩ := writeActive_file1_append
        { (writeActive s (List.replicate (4 - s.writePos % 4) 0)) with
            writePos := s.writePos + (4 - s.writePos % 4)
            blockIndex := s.blockIndex.set b
              (((s.writePos + (4 - s.writePos % 4)) % 4294967296) >>> 2)
            srcPos := s.srcPos + min CISO_BLOCK_SIZE (src.size - s.srcPos) }
        (blockRead src s.srcPos) h1
      refine ⟨h3, t1 ++ t2, ?_⟩
      rw [h4, h2, List.append_assoc]
    · rw [loopStep_noSplit_unaligned_comp compress src fp b s hw ha hc]
      obtain ⟨h1, t1, h2⟩ :=
        writeActive_file1_append s (List.replicate (4 - s.writePos % 4) 0) hpos
      obtain ⟨h3, t2, h4⟩ := writeActive_file1_append
        { (writeActive s (List.replicate (4 - s.writePos % 4) 0)) with
            writePos := s.writePos + (4 - s.writePos % 4)
            blockIndex := s.blockIndex.set b
              (((s.writePos + (4 - s.writePos % 4)) % 4294967296) >>> 2)
            srcPos := s.srcPos + min CISO_BLOCK_SIZE (src.size - s.srcPos) }
        (compress (blockRead src s.srcPos)) h1
      refine ⟨h3, t1 ++ t2, ?_⟩
      rw [h4, h2, List.append_assoc]

lemma loopStep_file1_append (compress : List Nat → List Nat)
    (src : ModelFile) (fp : String) (b : Nat) (s : LoopState)
    (hpos : s.file1.pos = s.file1.data.length) :
    (loopStep compress src fp b s).file1.pos =
      (loopStep compress src fp b s).file1.data.length ∧
    ∃ t, (loopStep compress src fp b s).file1.data = s.file1.data ++ t := by
  by_cases hw : s.writePos > FATX_MAX_SIZE
  · rw [loopStep_split_chain compress src fp b s hw]
    exact loopStep_file1_append_noSplit compress src fp b _ (by simp) hpos
  · exact loopStep_file1_append_noSplit compress src fp b s hw hpos

lemma states_file1_append (compress : List Nat → List Nat) (src : ModelFile)
    (fp : String) (s0 : LoopState) (hpos0 : s0.file1.pos = s0.file1.data.length) :
    ∀ k, (states compress src fp s0 k).file1.pos =
      (states compress src fp s0 k).file1.data.length ∧
    ∃ t, (states compress src fp s0 k).file1.data = s0.file1.data ++ t := by
  intro k
  induction k with
  | zero =>
    refine ⟨hpos0, [], ?_⟩
    show s0.file1.data = s0.file1.data ++ []
    simp
  | succ k ih =>
    obtain ⟨h1, t1, h2⟩ := ih
    obtain ⟨h3, t2, h4⟩ := loopStep_file1_append compress src fp k _ h1
    refine ⟨h3, t1 ++ t2, ?_⟩
    rw [states, h4, h2, List.append_assoc]

lemma write_cso_info_length (img : CsoImage) : (write_cso_info img).length = 24 := by
  simp [write_cso_info, bytesLE]

lemma initState_file1 (fp : String) (info : CsoImage) (off : Nat) :
    (initState fp info off).file1.data =
      write_cso_info info ++
        blockIndexBytes (List.replicate (info.total_blocks + 1) 0) ∧
    (initState fp info off).file1.pos = (initState fp info off).file1.data.length := by
  simp only [initState]
  rw [fileWrite_append { data := [], pos := 0 } (write_cso_info info) rfl]
  rw [fileWrite_append _ _ (by simp)]
  constructor
  · simp
  · simp

lemma fileWrite_at (f : OutFile) (c : Nat) (buf : List Nat) :
    (fileWrite { f with pos := c } buf).data =
      f.data.take c ++ buf ++ f.data.drop (c + buf.length) := rfl

/-- Claim C2 (amended): the first output file begins with the 24-byte CSO
header followed by the full final block index (the placeholder index region
is rewritten with the final values after all blocks are processed);
additional split files receive neither header nor index. -/
theorem C2_amended_first_file_layout (compress : List Nat → List Nat)
    (src : ModelFile) (fp : String) :
    match compress_iso compress src fp with
    | .error _ => True
    | .ok r =>
      ∃ rest, r.file1.data =
        write_cso_info r.info ++ blockIndexBytes r.blockIndex ++ rest := by
  unfold compress_iso
  rcases hg : get_cso_info src with e | io
  · trivial
  · rcases io with ⟨info, off⟩
    obtain ⟨hi1, hi2⟩ := initState_file1 fp info off
    obtain ⟨hp, t, hd⟩ :=
      states_file1_append compress src fp _ hi2 info.total_blocks
    show ∃ rest,
      (finalize (states compress src fp (initState fp info off)
        info.total_blocks)).file1.data =
        write_cso_info info ++
          blockIndexBytes
            ((finalize (states compress src fp (initState fp info off)
              info.total_blocks)).blockIndex) ++ rest
    set sN := states compress src fp (initState fp info off) info.total_blocks
      with hsN
    have hfin1 : (finalize sN).file1 =
        pad_file (fileWrite { sN.file1 with pos := CISO_HEADER_SIZE }
          (blockIndexBytes (sN.blockIndex.set (sN.blockIndex.length - 1)
            ((sN.writePos % 4294967296) >>> 2)))) := rfl
    have hfin2 : (finalize sN).blockIndex =
        sN.blockIndex.set (sN.blockIndex.length - 1)
          ((sN.writePos % 4294967296) >>> 2) := rfl
    rw [hfin1, hfin2, pad_file_data, fileWrite_at]
    rw [hd, hi1]
    rw [show CISO_HEADER_SIZE = 24 from rfl]
    rw [List.append_assoc (write_cso_info info)]
    rw [List.take_left' (write_cso_info_length info)]
    exact ⟨_, by rw [List.append_assoc]⟩

/-! ## Index monotonicity -/

lemma offsetField_small (e : Nat) (h : e < 2147483648) : offsetField e = e :=
  Nat.mod_eq_of_lt h

lemma entry_lt (w : Nat) : ((w % 4294967296) >>> 2) < 2147483648 := by
  rw [Nat.shiftRight_eq_div_pow]
  omega

lemma offsetField_or (e : Nat) (h : e < 2147483648) :
    offsetField (e ||| 2147483648) = e := by
  unfold offsetField
  have h1 : (2147483648 : Nat) = 2 ^ 31 := by norm_num
  rw [h1]
  apply Nat.eq_of_testBit_eq
  intro i
  rw [Nat.testBit_mod_two_pow, Nat.testBit_lor]
  by_cases hi : i < 31
  · rw [Nat.testBit_two_pow_of_ne (by omega)]
    simp [hi]
  · have he : e.testBit i = false :=
      Nat.testBit_lt_two_pow
        (lt_of_lt_of_le (h1 ▸ h) (Nat.pow_le_pow_right (by norm_num) (by omega)))
    simp [hi, he]

lemma offsetField_entry (w : Nat) :
    offsetField ((w % 4294967296) >>> 2) = w % 4294967296 / 4 := by
  rw [offsetField_small _ (entry_lt w), Nat.shiftRight_eq_div_pow]

lemma offsetField_entry_or (w : Nat) :
    offsetField (((w % 4294967296) >>> 2) ||| 2147483648) = w % 4294967296 / 4 := by
  rw [offsetField_or _ (entry_lt w), Nat.shiftRight_eq_div_pow]

lemma withW_writePos (X : LoopState) (v : Nat) :
    ({ X with writePos := v } : LoopState).writePos = v := rfl

lemma withWB_writePos (X : LoopState) (v : Nat) (bi : List Nat) :
    ({ X with writePos := v, blockIndex := bi } : LoopState).writePos = v := rfl

lemma loopStep_monotone_data (compress : List Nat → List Nat) (src : ModelFile)
    (fp : String) (b : Nat) (s : LoopState)
    (hw : s.writePos ≤ FATX_MAX_SIZE) (hb : b < s.blockIndex.length) :
    s.writePos ≤ (loopStep compress src fp b s).writePos ∧
    (loopStep compress src fp b s).writePos ≤ s.writePos + 2051 ∧
    s.writePos / 4 ≤
      offsetField ((loopStep compress src fp b s).blockIndex.getD b 0) ∧
    offsetField ((loopStep compress src fp b s).blockIndex.getD b 0) * 4 ≤
      (loopStep compress src fp b s).writePos := by
  have hw' : ¬ s.writePos > FATX_MAX_SIZE := by omega
  have hmod : s.writePos % 4294967296 = s.writePos :=
    Nat.mod_eq_of_lt (by unfold FATX_MAX_SIZE at hw; omega)
  have hread : min CISO_BLOCK_SIZE (src.size - s.srcPos) ≤ 2048 := by
    show min 2048 _ ≤ 2048
    omega
  by_cases ha : s.writePos % 4 = 0
  · by_cases hc : (compress (blockRead src s.srcPos)).length + 12 ≥
        min CISO_BLOCK_SIZE (src.size - s.srcPos)
    · rw [loopStep_noSplit_aligned_raw compress src fp b s hw' ha hc]
      simp only [withW_writePos, writeActive_blockIndex]
      rw [getD_set_self _ _ _ hb, offsetField_entry, hmod]
      have hdm : s.writePos / 4 * 4 ≤ s.writePos := Nat.div_mul_le_self _ _
      omega
    · rw [loopStep_noSplit_aligned_comp compress src fp b s hw' ha hc]
      simp only [withWB_writePos]
      rw [getD_set_self _ _ _ hb, offsetField_entry_or, hmod]
      have hdm : s.writePos / 4 * 4 ≤ s.writePos := Nat.div_mul_le_self _ _
      omega
  · have hmod2 : (s.writePos + (4 - s.writePos % 4)) % 4294967296 =
        s.writePos + (4 - s.writePos % 4) :=
      Nat.mod_eq_of_lt (by unfold FATX_MAX_SIZE at hw; omega)
    have hdiv : s.writePos / 4 ≤ (s.writePos + (4 - s.writePos % 4)) / 4 :=
      Nat.div_le_div_right (by omega)
    have hdm : (s.writePos + (4 - s.writePos % 4)) / 4 * 4 ≤
        s.writePos + (4 - s.writePos % 4) := Nat.div_mul_le_self _ _
    by_cases hc : (compress (blockRead src s.srcPos)).length + 12 ≥
        min CISO_BLOCK_SIZE (src.size - s.srcPos)
    · rw [loopStep_noSplit_unaligned_raw compress src fp b s hw' ha hc]
      simp only [withW_writePos, writeActive_blockIndex]
      rw [getD_set_self _ _ _ hb, offsetField_entry, hmod2]
      omega
    · rw [loopStep_noSplit_unaligned_comp compress src fp b s hw' ha hc]
      simp only [withWB_writePos]
      rw [getD_set_self _ _ _ hb, offsetField_entry_or, hmod2]
      omega

lemma states_monotone_inv (compress : List Nat → List Nat) (src : ModelFile)
    (fp : String) (s0 : LoopState) (B : Nat)
    (hlen : s0.blockIndex.length = B + 1)
    (hns : ∀ k, k < B →
      (states compress src fp s0 k).writePos ≤ FATX_MAX_SIZE) :
    ∀ k, k ≤ B →
      (∀ i, i < k →
        offsetField ((states compress src fp s0 k).blockIndex.getD i 0) * 4 ≤
          (states compress src fp s0 k).writePos) ∧
      (∀ i, i + 1 < k →
        offsetField ((states compress src fp s0 k).blockIndex.getD i 0) ≤
          offsetField ((states compress src fp s0 k).blockIndex.getD (i + 1) 0)) := by
  intro k
  induction k with
  | zero => exact fun _ => ⟨fun i hi => absurd hi (by omega),
      fun i hi => absurd hi (by omega)⟩
  | succ k ih =>
    intro hk
    obtain ⟨iha, ihb⟩ := ih (by omega)
    have hw := hns k (by omega)
    have hb : k < (states compress src fp s0 k).blockIndex.length := by
      rw [states_blockIndex_length, hlen]
      omega
    obtain ⟨m1, m2, m3, m4⟩ :=
      loopStep_monotone_data compress src fp k (states compress src fp s0 k) hw hb
    have hsucc : states compress src fp s0 (k + 1) =
        loopStep compress src fp k (states compress src fp s0 k) := rfl
    constructor
    · intro i hi
      rcases Nat.lt_or_ge i k with hik | hik
      · rw [hsucc, loopStep_blockIndex_other compress src fp k _ i (by omega)]
        exact le_trans (iha i hik) m1
      · have hik' : i = k := by omega
        subst hik'
        exact m4
    · intro i hi
      rcases Nat.lt_or_ge (i + 1) k with hik | hik
      · rw [hsucc, loopStep_blockIndex_other compress src fp k _ i (by omega),
          loopStep_blockIndex_other compress src fp k _ (i + 1) (by omega)]
        exact ihb i hik
      · have hik' : i + 1 = k := by omega
        rw [hsucc, loopStep_blockIndex_other compress src fp k _ i (by omega), hik']
        have h1 : offsetField
            ((states compress src fp s0 k).blockIndex.getD i 0) * 4 ≤
            (states compress src fp s0 k).writePos := by
          apply iha
          omega
        refine le_trans ?_ m3
        rw [Nat.le_div_iff_mul_le (by norm_num)]
        exact h1

lemma convIndex_eq (compress : List Nat → List Nat) (src : ModelFile)
    (fp : String) (info : CsoImage) (off : Nat)
    (hg : get_cso_info src = .ok (info, off)) :
    convIndex compress src fp =
      (finalize (states compress src fp (initState fp info off)
        info.total_blocks)).blockIndex := by
  unfold convIndex compress_iso
  rw [hg]

lemma convNumBlocks_eq (src : ModelFile) (info : CsoImage) (off : Nat)
    (hg : get_cso_info src = .ok (info, off)) :
    convNumBlocks src = info.total_blocks := by
  unfold convNumBlocks
  rw [hg]

lemma convWritePos_eq (compress : List Nat → List Nat) (src : ModelFile)
    (fp : String) (info : CsoImage) (off : Nat) (k : Nat)
    (hg : get_cso_info src = .ok (info, off)) :
    convWritePos compress src fp k =
      (states compress src fp (initState fp info off) k).writePos := by
  unfold convWritePos convStates
  rw [hg]

lemma finalize_blockIndex (s : LoopState) :
    (finalize s).blockIndex =
      s.blockIndex.set (s.blockIndex.length - 1)
        ((s.writePos % 4294967296) >>> 2) := rfl

/-- Claim C5 (amended): provided the running write offset never exceeds
`FATX_MAX_SIZE` during the block loop (so no split file is opened), the
offset fields of adjacent entries of the written index, terminator included,
are monotonically non-decreasing. -/
theorem C5_amended_monotone_without_split (compress : List Nat → List Nat)
    (src : ModelFile) (fp : String)
    (hns : ∀ k, k < convNumBlocks src →
      convWritePos compress src fp k ≤ FATX_MAX_SIZE) :
    ∀ i, i + 1 < convIndexLen compress src fp →
      offsetField (convIndexGet compress src fp i) ≤
        offsetField (convIndexGet compress src fp (i + 1)) := by
  intro i hi
  unfold convIndexGet at *
  unfold convIndexLen at hi
  rcases hg : get_cso_info src with e | io
  · rw [show convIndex compress src fp = [] by
      unfold convIndex compress_iso
      rw [hg]] at hi
    simp at hi
  · rcases io with ⟨info, off⟩
    rw [convIndex_eq compress src fp info off hg] at hi ⊢
    have hns' : ∀ k, k < info.total_blocks →
        (states compress src fp (initState fp info off) k).writePos ≤
          FATX_MAX_SIZE := by
      intro k hk
      have h := hns k (by rw [convNumBlocks_eq src info off hg]; exact hk)
      rwa [convWritePos_eq compress src fp info off k hg] at h
    have hlen0 : (initState fp info off).blockIndex.length =
        info.total_blocks + 1 := initState_blockIndex_length _ _ _
    have hlenN : (states compress src fp (initState fp info off)
        info.total_blocks).blockIndex.length = info.total_blocks + 1 := by
      rw [states_blockIndex_length, hlen0]
    rw [finalize_blockIndex, hlenN] at hi ⊢
    rw [List.length_set, hlenN] at hi
    have hterm : info.total_blocks + 1 - 1 = info.total_blocks := by omega
    rw [hterm]
    obtain ⟨invA, invB⟩ := states_monotone_inv compress src fp
      (initState fp info off) info.total_blocks hlen0 hns'
      info.total_blocks le_rfl
    rcases Nat.lt_or_ge (i + 1) info.total_blocks with hlt | hge
    · rw [getD_set_other _ _ _ _ (by omega), getD_set_other _ _ _ _ (by omega)]
      exact invB i hlt
    · have hi1B : i + 1 = info.total_blocks := by omega
      rw [getD_set_other _ _ _ _ (by omega), hi1B,
        getD_set_self _ _ _ (by rw [hlenN]; omega)]
      have hwB1 := hns' (info.total_blocks - 1) (by omega)
      have hbB : info.total_blocks - 1 <
          (states compress src fp (initState fp info off)
            (info.total_blocks - 1)).blockIndex.length := by
        rw [states_blockIndex_length, hlen0]
        omega
      obtain ⟨m1, m2, m3, m4⟩ := loopStep_monotone_data compress src fp
        (info.total_blocks - 1)
        (states compress src fp (initState fp info off)
          (info.total_blocks - 1)) hwB1 hbB
      have hstep : states compress src fp (initState fp info off)
          (info.total_blocks - 1 + 1) =
          loopStep compress src fp (info.total_blocks - 1)
            (states compress src fp (initState fp info off)
              (info.total_blocks - 1)) := rfl
      have hBB : info.total_blocks - 1 + 1 = info.total_blocks := by omega
      rw [hBB] at hstep
      rw [← hstep] at m1 m2
      have hwBlt : (states compress src fp (initState fp info off)
          info.total_blocks).writePos < 4294967296 := by
        unfold FATX_MAX_SIZE at hwB1
        omega
      rw [offsetField_entry, Nat.mod_eq_of_lt hwBlt]
      have ha := invA i (by omega)
      rw [Nat.le_div_iff_mul_le (by norm_num)]
      exact ha

set_option maxRecDepth 8000 in
/-- Witness for the amended C5 at a concrete input: the 32-block srcSmall
conversion with the empty-output compressor never exceeds the split
threshold, and its first two index entries are monotone. -/
theorem C5_amended_monotone_without_split_witness :
    1 < convIndexLen cZero srcSmall "Y" ∧
    offsetField (convIndexGet cZero srcSmall "Y" 0) ≤
      offsetField (convIndexGet cZero srcSmall "Y" 1) :=
  ⟨by decide,
    C5_amended_monotone_without_split cZero srcSmall "Y" (by decide) 0 (by decide)⟩

/-! ## The large split run -/

lemma fileWrite_pos (f : OutFile) (buf : List Nat) :
    (fileWrite f buf).pos = f.pos + buf.length := rfl

lemma blockIndexBytes_length (l : List Nat) :
    (blockIndexBytes l).length = 4 * l.length := by
  induction l with
  | nil => rfl
  | cons a t ih =>
    show (bytesLE 4 a ++ blockIndexBytes t).length = 4 * (t.length + 1)
    rw [List.length_append, ih]
    simp [bytesLE]
    omega

lemma initState_writePos (fp : String) (info : CsoImage) (off : Nat) :
    (initState fp info off).writePos = 24 + 4 * (info.total_blocks + 1) := by
  show (fileWrite (fileWrite { data := [], pos := 0 } (write_cso_info info))
    (blockIndexBytes (List.replicate (info.total_blocks + 1) 0))).pos = _
  rw [fileWrite_pos, fileWrite_pos, write_cso_info_length, blockIndexBytes_length]
  simp

lemma initState_file2 (fp : String) (info : CsoImage) (off : Nat) :
    (initState fp info off).file2 = none := rfl

lemma initState_filesOpened (fp : String) (info : CsoImage) (off : Nat) :
    (initState fp info off).filesOpened = [fp ++ ".1.cso"] := rfl

lemma cId_raw (src : ModelFile) (p : Nat) :
    (cId (blockRead src p)).length + 12 ≥ min CISO_BLOCK_SIZE (src.size - p) := by
  show min CISO_BLOCK_SIZE (src.size - p) ≤ (blockRead src p).length + 12
  rw [blockRead_length]
  omega

lemma srcBig_size : srcBig.size = 8573132800 := rfl

lemma blockRead_srcBig_zero (p : Nat) (h1 : 65556 ≤ p)
    (h2 : p + 2048 ≤ 8573132800) :
    blockRead srcBig p = List.replicate 2048 0 := by
  unfold blockRead
  rw [srcBig_size]
  rw [show min CISO_BLOCK_SIZE (8573132800 - p) = 2048 by
    show min 2048 _ = 2048
    omega]
  refine List.eq_replicate_iff.2 ⟨by simp, ?_⟩
  intro b hb
  rcases List.mem_map.1 hb with ⟨i, hi, rfl⟩
  show (if 65536 ≤ p + i ∧ p + i < 65556 then xbox_media_header.getD (p + i - 65536) 0
    else 0) = 0
  rw [if_neg (by omega)]

lemma withW_srcPos (X : LoopState) (v : Nat) :
    ({ X with writePos := v } : LoopState).srcPos = X.srcPos := rfl

lemma withW_file2 (X : LoopState) (v : Nat) :
    ({ X with writePos := v } : LoopState).file2 = X.file2 := rfl

lemma withW_filesOpened (X : LoopState) (v : Nat) :
    ({ X with writePos := v } : LoopState).filesOpened = X.filesOpened := rfl

lemma withW_blockIndex (X : LoopState) (v : Nat) :
    ({ X with writePos := v } : LoopState).blockIndex = X.blockIndex := rfl

lemma loopStep_cId_fields (src : ModelFile) (fp : String) (b : Nat) (s : LoopState)
    (hw : ¬ s.writePos > FATX_MAX_SIZE) (ha : s.writePos % 4 = 0)
    (hr : s.srcPos + 2048 ≤ src.size) :
    (loopStep cId src fp b s).writePos = s.writePos + 2048 ∧
    (loopStep cId src fp b s).srcPos = s.srcPos + 2048 ∧
    (loopStep cId src fp b s).filesOpened = s.filesOpened ∧
    (loopStep cId src fp b s).blockIndex =
      s.blockIndex.set b ((s.writePos % 4294967296) >>> 2) ∧
    (s.file2 = none → (loopStep cId src fp b s).file2 = none) ∧
    (∀ f, s.file2 = some f →
      (loopStep cId src fp b s).file2 =
        some (fileWrite f (blockRead src s.srcPos))) := by
  have hread : min CISO_BLOCK_SIZE (src.size - s.srcPos) = 2048 := by
    show min 2048 _ = 2048
    omega
  rw [loopStep_noSplit_aligned_raw cId src fp b s hw ha (cId_raw src s.srcPos)]
  rw [hread]
  refine ⟨rfl, ?_, ?_, ?_, ?_, ?_⟩
  · rw [withW_srcPos, writeActive_srcPos]
  · rw [withW_filesOpened, writeActive_filesOpened]
  · rw [withW_blockIndex, writeActive_blockIndex]
  · intro h
    rw [withW_file2]
    exact writeActive_file2_none _ _ h
  · intro f h
    rw [withW_file2]
    refine (writeActive_file2_some
      { s with
          blockIndex := s.blockIndex.set b ((s.writePos % 4294967296) >>> 2)
          srcPos := s.srcPos + 2048 }
      (blockRead src s.srcPos) f ?_).1
    exact h

lemma bigPhase1 : ∀ k, k ≤ 2086909 →
    (states cId srcBig "X" s0Big k).writePos = 16744428 + 2048 * k ∧
    (states cId srcBig "X" s0Big k).srcPos = 2048 * k ∧
    (states cId srcBig "X" s0Big k).file2 = none ∧
    (states cId srcBig "X" s0Big k).filesOpened = ["X" ++ ".1.cso"] := by
  intro k
  induction k with
  | zero =>
    intro _
    refine ⟨?_, ?_, rfl, rfl⟩
    · show s0Big.writePos = _
      unfold s0Big
      rw [initState_writePos]
      rfl
    · rfl
  | succ k ih =>
    intro hk
    obtain ⟨ih1, ih2, ih3, ih4⟩ := ih (by omega)
    obtain ⟨h1, h2, h3, h4, h5, h6⟩ := loopStep_cId_fields srcBig "X" k
      (states cId srcBig "X" s0Big k)
      (by rw [ih1]; unfold FATX_MAX_SIZE; omega)
      (by rw [ih1]; omega)
      (by rw [ih2, srcBig_size]; omega)
    have hsucc : states cId srcBig "X" s0Big (k + 1) =
        loopStep cId srcBig "X" k (states cId srcBig "X" s0Big k) := rfl
    rw [hsucc]
    refine ⟨?_, ?_, ?_, ?_⟩
    · rw [h1, ih1]
      ring
    · rw [h2, ih2]
      ring
    · exact h5 ih3
    · rw [h3, ih4]

lemma states_blockIndexLenBig (k : Nat) :
    (states cId srcBig "X" s0Big k).blockIndex.length = 4186101 := by
  rw [states_blockIndex_length]
  show (initState "X" bigInfo 0).blockIndex.length = 4186101
  rw [initState_blockIndex_length]
  rfl

lemma states_getD_stable (compress : List Nat → List Nat) (src : ModelFile)
    (fp : String) (s0 : LoopState) (i : Nat) :
    ∀ k2 k1, k1 ≤ k2 → i < k1 →
      (states compress src fp s0 k2).blockIndex.getD i 0 =
        (states compress src fp s0 k1).blockIndex.getD i 0 := by
  intro k2
  induction k2 with
  | zero =>
    intro k1 h1 _
    have : k1 = 0 := by omega
    rw [this]
  | succ k2 ih =>
    intro k1 h1 h2
    rcases Nat.lt_or_ge k1 (k2 + 1) with h | h
    · have hsucc : states compress src fp s0 (k2 + 1) =
          loopStep compress src fp k2 (states compress src fp s0 k2) := rfl
      rw [hsucc, loopStep_blockIndex_other compress src fp k2 _ i (by omega)]
      exact ih k1 (by omega) h2
    · have : k1 = k2 + 1 := by omega
      rw [this]

lemma bigEntry (k : Nat) (hk : k ≤ 2086908) :
    (states cId srcBig "X" s0Big (k + 1)).blockIndex.getD k 0 =
      (16744428 + 2048 * k) / 4 := by
  obtain ⟨ih1, ih2, ih3, ih4⟩ := bigPhase1 k (by omega)
  obtain ⟨h1, h2, h3, h4, h5, h6⟩ := loopStep_cId_fields srcBig "X" k
    (states cId srcBig "X" s0Big k)
    (by rw [ih1]; unfold FATX_MAX_SIZE; omega)
    (by rw [ih1]; omega)
    (by rw [ih2, srcBig_size]; omega)
  have hsucc : states cId srcBig "X" s0Big (k + 1) =
      loopStep cId srcBig "X" k (states cId srcBig "X" s0Big k) := rfl
  rw [hsucc, h4, getD_set_self _ _ _ (by rw [states_blockIndexLenBig]; omega)]
  rw [ih1, Nat.mod_eq_of_lt (by omega), Nat.shiftRight_eq_div_pow]

lemma bigSplitStep (a : Nat) (h33 : 33 ≤ a) (haB : a + 1 ≤ 4186100)
    (hw : (states cId srcBig "X" s0Big a).writePos > FATX_MAX_SIZE)
    (hsp : (states cId srcBig "X" s0Big a).srcPos = 2048 * a) :
    (states cId srcBig "X" s0Big (a + 1)).writePos = 2048 ∧
    (states cId srcBig "X" s0Big (a + 1)).srcPos = 2048 * (a + 1) ∧
    (states cId srcBig "X" s0Big (a + 1)).file2 =
      some { data := List.replicate 2048 0, pos := 2048 } ∧
    (states cId srcBig "X" s0Big (a + 1)).filesOpened =
      (states cId srcBig "X" s0Big a).filesOpened ++ ["X" ++ ".2.cso"] ∧
    (states cId srcBig "X" s0Big (a + 1)).blockIndex.getD a 0 = 0 := by
  have hsucc : states cId srcBig "X" s0Big (a + 1) =
      loopStep cId srcBig "X" a (states cId srcBig "X" s0Big a) := rfl
  rw [hsucc, loopStep_split_chain cId srcBig "X" a _ hw]
  obtain ⟨h1, h2, h3, h4, h5, h6⟩ := loopStep_cId_fields srcBig "X" a
    { states cId srcBig "X" s0Big a with
        file2 := some ⟨[], 0⟩
        writePos := 0
        filesOpened := (states cId srcBig "X" s0Big a).filesOpened ++
          ["X" ++ ".2.cso"] }
    (by simp)
    (by simp)
    (by show (states cId srcBig "X" s0Big a).srcPos + 2048 ≤ srcBig.size
        rw [hsp, srcBig_size]
        omega)
  refine ⟨?_, ?_, ?_, ?_, ?_⟩
  · rw [h1]
  · rw [h2]
    show (states cId srcBig "X" s0Big a).srcPos + 2048 = _
    rw [hsp]
    ring
  · rw [h6 ⟨[], 0⟩ rfl]
    show some (fileWrite ⟨[], 0⟩
      (blockRead srcBig (states cId srcBig "X" s0Big a).srcPos)) = _
    rw [hsp, blockRead_srcBig_zero (2048 * a) (by omega) (by omega)]
    rw [fileWrite_append ⟨[], 0⟩ _ rfl]
    simp only [List.nil_append, List.length_nil, List.length_replicate,
      Nat.zero_add]
  · rw [h3]
  · rw [h4]
    rw [getD_set_self]
    · show (0 % 4294967296) >>> 2 = 0
      rfl
    · show a < ({ states cId srcBig "X" s0Big a with
          file2 := some ⟨[], 0⟩
          writePos := 0
          filesOpened := (states cId srcBig "X" s0Big a).filesOpened ++
            ["X" ++ ".2.cso"] } : LoopState).blockIndex.length
      show a < (states cId srcBig "X" s0Big a).blockIndex.length
      rw [states_blockIndexLenBig]
      omega

lemma bigSteady (a0 M : Nat) (fo : List String) (h33 : 33 ≤ a0)
    (hM : a0 + M ≤ 4186100) (hsplit : 2048 * M ≤ FATX_MAX_SIZE)
    (hb1 : (states cId srcBig "X" s0Big a0).writePos = 2048)
    (hb2 : (states cId srcBig "X" s0Big a0).srcPos = 2048 * a0)
    (hb3 : (states cId srcBig "X" s0Big a0).file2 =
      some { data := List.replicate 2048 0, pos := 2048 })
    (hb4 : (states cId srcBig "X" s0Big a0).filesOpened = fo) :
    ∀ j, j ≤ M →
      (states cId srcBig "X" s0Big (a0 + j)).writePos = 2048 * (j + 1) ∧
      (states cId srcBig "X" s0Big (a0 + j)).srcPos = 2048 * (a0 + j) ∧
      (states cId srcBig "X" s0Big (a0 + j)).file2 =
        some { data := List.replicate (2048 * (j + 1)) 0, pos := 2048 * (j + 1) } ∧
      (states cId srcBig "X" s0Big (a0 + j)).filesOpened = fo := by
  intro j
  induction j with
  | zero =>
    intro _
    simp only [Nat.add_zero]
    refine ⟨?_, ?_, ?_, hb4⟩
    · rw [hb1]
    · rw [hb2]
    · rw [hb3]
  | succ j ih =>
    intro hj
    obtain ⟨ih1, ih2, ih3, ih4⟩ := ih (by omega)
    have hFX : FATX_MAX_SIZE = 4290732032 := rfl
    obtain ⟨h1, h2, h3, h4, h5, h6⟩ := loopStep_cId_fields srcBig "X" (a0 + j)
      (states cId srcBig "X" s0Big (a0 + j))
      (by rw [ih1]; omega)
      (by rw [ih1]; omega)
      (by rw [ih2, srcBig_size]; omega)
    have hsucc : states cId srcBig "X" s0Big (a0 + (j + 1)) =
        loopStep cId srcBig "X" (a0 + j)
          (states cId srcBig "X" s0Big (a0 + j)) := rfl
    rw [hsucc]
    refine ⟨?_, ?_, ?_, ?_⟩
    · rw [h1, ih1]
      ring
    · rw [h2, ih2]
      ring
    · rw [h6 _ ih3]
      rw [ih2, blockRead_srcBig_zero (2048 * (a0 + j)) (by omega) (by omega)]
      rw [fileWrite_append _ _ (by simp)]
      simp only [List.length_replicate]
      rw [← List.replicate_add]
      constructor
    · rw [h3, ih4]

lemma finalize_file2 (s : LoopState) :
    (finalize s).file2 = s.file2.map pad_file := rfl

lemma big_get_cso_info : get_cso_info srcBig = .ok (bigInfo, 0) := by decide

lemma bigFinal :
    (states cId srcBig "X" s0Big 4186100).file2 =
      some { data := List.replicate 8409088 0, pos := 8409088 } ∧
    (states cId srcBig "X" s0Big 4186100).filesOpened =
      ["X" ++ ".1.cso", "X" ++ ".2.cso", "X" ++ ".2.cso"] ∧
    (states cId srcBig "X" s0Big 4186100).blockIndex.getD 2086908 0 = 1072683003 ∧
    (states cId srcBig "X" s0Big 4186100).blockIndex.getD 2086909 0 = 0 := by
  obtain ⟨p1w, p1s, p1f, p1o⟩ := bigPhase1 2086909 le_rfl
  obtain ⟨s1w, s1s, s1f, s1o, s1e⟩ := bigSplitStep 2086909 (by omega) (by omega)
    (by rw [p1w]; unfold FATX_MAX_SIZE; omega) p1s
  rw [p1o] at s1o
  have hfo2 : ["X" ++ ".1.cso"] ++ ["X" ++ ".2.cso"] =
      ["X" ++ ".1.cso", "X" ++ ".2.cso"] := rfl
  rw [hfo2] at s1o
  have hj1 : (2086909 : Nat) + 1 = 2086910 := by norm_num
  rw [hj1] at s1w s1s s1f s1o s1e
  have steady2 := bigSteady 2086910 2095084 ["X" ++ ".1.cso", "X" ++ ".2.cso"]
    (by omega) (by omega) (by unfold FATX_MAX_SIZE; omega)
    s1w s1s s1f s1o
  obtain ⟨q2w, q2s, q2f, q2o⟩ := steady2 2095084 le_rfl
  have hj2 : (2086910 : Nat) + 2095084 = 4181994 := by norm_num
  rw [hj2] at q2w q2s q2f q2o
  obtain ⟨s2w, s2s, s2f, s2o, s2e⟩ := bigSplitStep 4181994 (by omega) (by omega)
    (by rw [q2w]; unfold FATX_MAX_SIZE; omega) (by rw [q2s])
  rw [q2o] at s2o
  have hfo3 : ["X" ++ ".1.cso", "X" ++ ".2.cso"] ++ ["X" ++ ".2.cso"] =
      ["X" ++ ".1.cso", "X" ++ ".2.cso", "X" ++ ".2.cso"] := rfl
  rw [hfo3] at s2o
  have hj3 : (4181994 : Nat) + 1 = 4181995 := by norm_num
  rw [hj3] at s2w s2s s2f s2o s2e
  have steady3 := bigSteady 4181995 4105
    ["X" ++ ".1.cso", "X" ++ ".2.cso", "X" ++ ".2.cso"]
    (by omega) (by omega) (by unfold FATX_MAX_SIZE; omega)
    s2w s2s s2f s2o
  obtain ⟨q3w, q3s, q3f, q3o⟩ := steady3 4105 le_rfl
  have hj4 : (4181995 : Nat) + 4105 = 4186100 := by norm_num
  rw [hj4] at q3w q3s q3f q3o
  refine ⟨?_, q3o, ?_, ?_⟩
  · rw [q3f]
  · have he := bigEntry 2086908 (by omega)
    have hj5 : (2086908 : Nat) + 1 = 2086909 := by norm_num
    rw [hj5] at he
    have hst := states_getD_stable cId srcBig "X" s0Big 2086908
      4186100 2086909 (by omega) (by omega)
    rw [hst, he]
  · have hst := states_getD_stable cId srcBig "X" s0Big 2086909
      4186100 2086910 (by omega) (by omega)
    rw [hst, s1e]

lemma pad_file_replicate_take (n k : Nat) (hk : k ≤ n) :
    (pad_file { data := List.replicate n (0:Nat), pos := n }).data.take k =
      List.replicate k 0 := by
  rw [pad_file_data]
  rw [List.length_replicate]
  rw [← List.replicate_add]
  rw [List.take_replicate]
  congr 1
  omega

lemma convFilesOpened_eq (compress : List Nat → List Nat) (src : ModelFile)
    (fp : String) (info : CsoImage) (off : Nat)
    (hg : get_cso_info src = .ok (info, off)) :
    convFilesOpened compress src fp =
      (finalize (states compress src fp (initState fp info off)
        info.total_blocks)).filesOpened := by
  unfold convFilesOpened compress_iso
  rw [hg]

lemma convFile2Take_eq (compress : List Nat → List Nat) (src : ModelFile)
    (fp : String) (n : Nat) (info : CsoImage) (off : Nat)
    (hg : get_cso_info src = .ok (info, off)) :
    convFile2Take compress src fp n =
      ((finalize (states compress src fp (initState fp info off)
        info.total_blocks)).file2).map fun f => f.data.take n := by
  unfold convFile2Take compress_iso
  rw [hg]

/-- Counterexample to claim C2: in the split conversion of `srcBig` the
second physical file exists but its first four bytes are zeros, not the CSO
magic `"CISO"` — it does not begin with a CSO header, and its index region is
never written. -/
theorem C2_counterexample_second_file_headerless :
    convFile2Take cId srcBig "X" 4 = some [0, 0, 0, 0] ∧
    bytesLE 4 CISO_MAGIC = [67, 73, 83, 79] ∧
    ([0, 0, 0, 0] : List Nat) ≠ [67, 73, 83, 79] := by
  refine ⟨?_, by decide, by decide⟩
  rw [convFile2Take_eq cId srcBig "X" 4 bigInfo 0 big_get_cso_info]
  rw [finalize_file2]
  rw [show initState "X" bigInfo 0 = s0Big from rfl,
    show bigInfo.total_blocks = 4186100 from rfl]
  rw [bigFinal.1]
  show some ((pad_file { data := List.replicate 8409088 0, pos := 8409088 }).data.take 4) =
    some [0, 0, 0, 0]
  rw [pad_file_replicate_take 8409088 4 (by norm_num)]
  rfl

/-- Counterexample to claim C4: in the split conversion of `srcBig` the split
threshold is crossed twice; the files passed to `File::create` are
`X.1.cso`, `X.2.cso` and then `X.2.cso` again — the second split re-creates
(truncates) `X.2.cso` and `X.3.cso` is never opened. -/
theorem C4_counterexample_second_split_reuses_name :
    convFilesOpened cId srcBig "X" = ["X.1.cso", "X.2.cso", "X.2.cso"] ∧
    (["X.1.cso", "X.2.cso", "X.2.cso"] : List String).count "X.2.cso" = 2 ∧
    "X.3.cso" ∉ (["X.1.cso", "X.2.cso", "X.2.cso"] : List String) := by
  refine ⟨?_, by decide, by decide⟩
  rw [convFilesOpened_eq cId srcBig "X" bigInfo 0 big_get_cso_info]
  rw [finalize_filesOpened]
  rw [show initState "X" bigInfo 0 = s0Big from rfl,
    show bigInfo.total_blocks = 4186100 from rfl]
  rw [bigFinal.2.1]
  rfl

/-- Counterexample to claim C5: in the split conversion of `srcBig` the
index written into the first file has adjacent entries 2086908 and 2086909
whose offset fields are 1072683003 and 0 — the offset field decreases at the
split point. -/
theorem C5_counterexample_split_breaks_monotonicity :
    convIndexGet cId srcBig "X" 2086908 = 1072683003 ∧
    convIndexGet cId srcBig "X" 2086909 = 0 ∧
    2086908 + 1 < convIndexLen cId srcBig "X" ∧
    ¬ offsetField (convIndexGet cId srcBig "X" 2086908) ≤
      offsetField (convIndexGet cId srcBig "X" 2086909) := by
  have hIdx := convIndex_eq cId srcBig "X" bigInfo 0 big_get_cso_info
  have hlenN : (states cId srcBig "X" s0Big 4186100).blockIndex.length =
      4186101 := states_blockIndexLenBig 4186100
  have h1 : convIndexGet cId srcBig "X" 2086908 = 1072683003 := by
    unfold convIndexGet
    rw [hIdx, finalize_blockIndex]
    rw [show initState "X" bigInfo 0 = s0Big from rfl,
      show bigInfo.total_blocks = 4186100 from rfl]
    rw [hlenN]
    rw [getD_set_other _ _ _ _ (by norm_num)]
    exact bigFinal.2.2.1
  have h2 : convIndexGet cId srcBig "X" 2086909 = 0 := by
    unfold convIndexGet
    rw [hIdx, finalize_blockIndex]
    rw [show initState "X" bigInfo 0 = s0Big from rfl,
      show bigInfo.total_blocks = 4186100 from rfl]
    rw [hlenN]
    rw [getD_set_other _ _ _ _ (by norm_num)]
    exact bigFinal.2.2.2
  have h3 : convIndexLen cId srcBig "X" = 4186101 := by
    unfold convIndexLen
    rw [hIdx, finalize_blockIndex]
    rw [show initState "X" bigInfo 0 = s0Big from rfl,
      show bigInfo.total_blocks = 4186100 from rfl]
    rw [List.length_set, hlenN]
  refine ⟨h1, h2, by rw [h3]; norm_num, ?_⟩
  rw [h1, h2]
  decide

/-! ## The split branch in general -/

lemma withWB_filesOpened (X : LoopState) (v : Nat) (bi : List Nat) :
    ({ X with writePos := v, blockIndex := bi } : LoopState).filesOpened =
      X.filesOpened := rfl

lemma withBS_filesOpened (X : LoopState) (bi : List Nat) (p : Nat) :
    ({ X with blockIndex := bi, srcPos := p } : LoopState).filesOpened =
      X.filesOpened := rfl

lemma withWBS_filesOpened (X : LoopState) (v : Nat) (bi : List Nat) (p : Nat) :
    ({ X with writePos := v, blockIndex := bi, srcPos := p } : LoopState).filesOpened =
      X.filesOpened := rfl

lemma withWFF_writePos (X : LoopState) (f2 : Option OutFile) (v : Nat)
    (fo : List String) :
    ({ X with file2 := f2, writePos := v, filesOpened := fo } : LoopState).writePos =
      v := rfl

lemma withWFF_filesOpened (X : LoopState) (f2 : Option OutFile) (v : Nat)
    (fo : List String) :
    ({ X with file2 := f2, writePos := v, filesOpened := fo } : LoopState).filesOpened =
      fo := rfl

lemma loopStep_filesOpened_noSplit (compress : List Nat → List Nat)
    (src : ModelFile) (fp : String) (b : Nat) (s : LoopState)
    (hw : ¬ s.writePos > FATX_MAX_SIZE) :
    (loopStep compress src fp b s).filesOpened = s.filesOpened := by
  by_cases ha : s.writePos % 4 = 0
  · by_cases hc : (compress (blockRead src s.srcPos)).length + 12 ≥
        min CISO_BLOCK_SIZE (src.size - s.srcPos)
    · rw [loopStep_noSplit_aligned_raw compress src fp b s hw ha hc,
        withW_filesOpened, writeActive_filesOpened, withBS_filesOpened]
    · rw [loopStep_noSplit_aligned_comp compress src fp b s hw ha hc,
        withWB_filesOpened, writeActive_filesOpened, withBS_filesOpened]
  · by_cases hc : (compress (blockRead src s.srcPos)).length + 12 ≥
        min CISO_BLOCK_SIZE (src.size - s.srcPos)
    · rw [loopStep_noSplit_unaligned_raw compress src fp b s hw ha hc,
        withW_filesOpened, writeActive_filesOpened, withWBS_filesOpened,
        writeActive_filesOpened]
    · rw [loopStep_noSplit_unaligned_comp compress src fp b s hw ha hc,
        withWB_filesOpened, writeActive_filesOpened, withWBS_filesOpened,
        writeActive_filesOpened]

/-- Claim C4 (amended): whenever the running write offset exceeds the
per-file ceiling `FATX_MAX_SIZE` (4290732032 bytes), the block is processed
in a freshly created split file with the write offset reset to 0 — but the
split file is always named `fp ++ ".2.cso"`: the list of created files grows
by exactly that one name at every split, so the names are not numbered
sequentially and a later split re-creates (truncates) the same `.2.cso`. -/
theorem C4_amended_split_resets_offset (compress : List Nat → List Nat)
    (src : ModelFile) (fp : String) (b : Nat) (s : LoopState)
    (hw : s.writePos > FATX_MAX_SIZE) :
    loopStep compress src fp b s =
      loopStep compress src fp b
        { s with file2 := some { data := [], pos := 0 },
                 writePos := 0,
                 filesOpened := s.filesOpened ++ [fp ++ ".2.cso"] } ∧
    (loopStep compress src fp b s).filesOpened =
      s.filesOpened ++ [fp ++ ".2.cso"] := by
  refine ⟨loopStep_split_chain compress src fp b s hw, ?_⟩
  rw [loopStep_split_chain compress src fp b s hw]
  rw [loopStep_filesOpened_noSplit compress src fp b _
    (by rw [withWFF_writePos]; decide)]

theorem C4_amended_split_resets_offset_witness :
    splitDemoState.writePos > FATX_MAX_SIZE ∧
    (loopStep cZero srcEmpty "W" 0 splitDemoState).filesOpened =
      splitDemoState.filesOpened ++ ["W" ++ ".2.cso"] :=
  ⟨by decide, (C4_amended_split_resets_offset cZero srcEmpty "W" 0 splitDemoState
    (by decide)).2⟩

lemma withWFF_srcPos' (X : LoopState) (f2 : Option OutFile) (v : Nat)
    (fo : List String) :
    ({ X with file2 := f2, writePos := v, filesOpened := fo } : LoopState).srcPos =
      X.srcPos := rfl

lemma withWFF_blockIndex' (X : LoopState) (f2 : Option OutFile) (v : Nat)
    (fo : List String) :
    ({ X with file2 := f2, writePos := v, filesOpened := fo } : LoopState).blockIndex =
      X.blockIndex := rfl

lemma activeOf_withWFF (X : LoopState) (f : OutFile) (v : Nat) (fo : List String) :
    activeOf ({ X with file2 := some f, writePos := v, filesOpened := fo } :
      LoopState) = f := rfl

/-- Claim C1: for every loop iteration — whether or not it opens a split
file — the compressed-flag bit (bit 31) of the block's index entry is set iff
`len(compressed) + 12 < read`, and exactly the compressed bytes (when that
inequality holds) or the raw read bytes (otherwise) are stored: in a
non-split iteration they are appended to the active output file after at
most 3 alignment zero bytes, and in a split iteration they form the entire
contents of the freshly created split file; a compressed form with
`len(compressed) + 12 >= read` is never stored. -/
theorem C1_store_decision (compress : List Nat → List Nat) (src : ModelFile)
    (fp : String) (b : Nat) (s : LoopState)
    (hb : b < s.blockIndex.length)
    (hpos : (activeOf s).pos = (activeOf s).data.length) :
    (((loopStep compress src fp b s).blockIndex.getD b 0).testBit 31 = true ↔
      (compress (blockRead src s.srcPos)).length + 12 <
        min CISO_BLOCK_SIZE (src.size - s.srcPos)) ∧
    (s.writePos ≤ FATX_MAX_SIZE →
      (activeOf (loopStep compress src fp b s)).data =
        (activeOf s).data ++ List.replicate ((4 - s.writePos % 4) % 4) 0 ++
        (if (compress (blockRead src s.srcPos)).length + 12 <
            min CISO_BLOCK_SIZE (src.size - s.srcPos)
         then compress (blockRead src s.srcPos)
         else blockRead src s.srcPos)) ∧
    (s.writePos > FATX_MAX_SIZE →
      (activeOf (loopStep compress src fp b s)).data =
        (if (compress (blockRead src s.srcPos)).length + 12 <
            min CISO_BLOCK_SIZE (src.size - s.srcPos)
         then compress (blockRead src s.srcPos)
         else blockRead src s.srcPos)) := by
  by_cases hsp : s.writePos > FATX_MAX_SIZE
  · rw [loopStep_split_chain compress src fp b s hsp]
    obtain ⟨h1, h2⟩ := store_decision_noSplit compress src fp b
      { s with file2 := some { data := [], pos := 0 }, writePos := 0,
               filesOpened := s.filesOpened ++ [fp ++ ".2.cso"] }
      (by rw [withWFF_blockIndex']; exact hb)
      (by rw [withWFF_writePos]; exact Nat.zero_le _)
      rfl
    rw [withWFF_srcPos'] at h1 h2
    rw [withWFF_writePos] at h2
    rw [activeOf_withWFF] at h2
    refine ⟨h1, fun hle => absurd hsp (by omega), fun _ => ?_⟩
    rw [h2]
    simp
  · obtain ⟨h1, h2⟩ := store_decision_noSplit compress src fp b s hb (by omega) hpos
    exact ⟨h1, fun _ => h2, fun h => absurd h hsp⟩

/-- Witness for C1 at a concrete input: a 5-byte source of byte 7, empty
state, `cZero` compressor.  Compression yields 0 + 12 >= 5, so the raw bytes
are stored and bit 31 stays clear. -/
theorem C1_store_decision_witness :
    ((0 : Nat) < ([0, 0] : List Nat).length ∧
      (activeOf ⟨⟨[], 0⟩, none, 0, [0, 0], 0, []⟩).pos =
        (activeOf ⟨⟨[], 0⟩, none, 0, [0, 0], 0, []⟩).data.length) ∧
    ((((loopStep cZero ⟨5, fun _ => 7⟩ "Z" 0
          ⟨⟨[], 0⟩, none, 0, [0, 0], 0, []⟩).blockIndex.getD 0 0).testBit 31 = true ↔
        (cZero (blockRead ⟨5, fun _ => 7⟩ 0)).length + 12 <
          min CISO_BLOCK_SIZE ((5 : Nat) - 0)) ∧
      ((0 : Nat) ≤ FATX_MAX_SIZE →
        (activeOf (loopStep cZero ⟨5, fun _ => 7⟩ "Z" 0
            ⟨⟨[], 0⟩, none, 0, [0, 0], 0, []⟩)).data =
          (activeOf (⟨⟨[], 0⟩, none, 0, [0, 0], 0, []⟩ : LoopState)).data ++
            List.replicate ((4 - 0 % 4) % 4) 0 ++
            (if (cZero (blockRead ⟨5, fun _ => 7⟩ 0)).length + 12 <
                min CISO_BLOCK_SIZE ((5 : Nat) - 0)
             then cZero (blockRead ⟨5, fun _ => 7⟩ 0)
             else blockRead ⟨5, fun _ => 7⟩ 0)) ∧
      ((0 : Nat) > FATX_MAX_SIZE →
        (activeOf (loopStep cZero ⟨5, fun _ => 7⟩ "Z" 0
            ⟨⟨[], 0⟩, none, 0, [0, 0], 0, []⟩)).data =
          (if (cZero (blockRead ⟨5, fun _ => 7⟩ 0)).length + 12 <
              min CISO_BLOCK_SIZE ((5 : Nat) - 0)
           then cZero (blockRead ⟨5, fun _ => 7⟩ 0)
           else blockRead ⟨5, fun _ => 7⟩ 0))) :=
  ⟨⟨by decide, by decide⟩,
    C1_store_decision cZero ⟨5, fun _ => 7⟩ "Z" 0 ⟨⟨[], 0⟩, none, 0, [0, 0], 0, []⟩
      (by decide) (by decide)⟩
